import Mathlib

/-!
Verification development for the MCP-Nexus trust & liveness core
(server verification state machine, health aggregation, webhook delivery).

Each definition is a shallow embedding of the corresponding Python source:
  * `sha256` / `hmac_sha256` / `sign_payload`  — webhooks/tasks.py `sign_payload`
  * `process_webhook_delivery` etc.            — webhooks/tasks.py
  * the verification state machine             — verification/views.py, verification/models.py
  * `health_check_save`                        — verification/models.py `HealthCheck.save`
  * `verify_capabilities`, `verify_meta_tag`   — verification/views.py
  * server lifecycle                           — servers/models.py, verification/tasks.py
-/

set_option maxRecDepth 4096

namespace McpNexus

/-! ## Byte-level utilities (bytes are `Nat`s below 256, words are `Nat`s below 2^32) -/

/-- 2^32, the word modulus used throughout SHA-256. -/
def M32 : Nat := 4294967296

/-- Rotate a word right by `n` bit positions, done with division and
multiplication on `Nat`. -/
def rotr32 (n x : Nat) : Nat :=
  (x / 2 ^ n + (x % 2 ^ n) * 2 ^ (32 - n)) % M32

/-- Bitwise complement of a 32-bit word. -/
def not32 (x : Nat) : Nat := x ^^^ (M32 - 1)

/-- UTF-8 encoding of a single unicode code point (mirrors `str.encode('utf-8')`). -/
def utf8Bytes (c : Nat) : List Nat :=
  if c < 128 then [c]
  else if c < 2048 then [192 + c / 64, 128 + c % 64]
  else if c < 65536 then [224 + c / 4096, 128 + c / 64 % 64, 128 + c % 64]
  else [240 + c / 262144, 128 + c / 4096 % 64, 128 + c / 64 % 64, 128 + c % 64]

/-- The bytes of a string, as produced by Python's `str.encode('utf-8')`. -/
def strBytes (s : String) : List Nat :=
  s.data.foldr (fun c acc => utf8Bytes c.toNat ++ acc) []

/-- Big-endian 8-byte encoding of a length in bits (SHA-256 padding trailer). -/
def be64 (n : Nat) : List Nat :=
  [n / 2 ^ 56 % 256, n / 2 ^ 48 % 256, n / 2 ^ 40 % 256, n / 2 ^ 32 % 256,
   n / 2 ^ 24 % 256, n / 2 ^ 16 % 256, n / 2 ^ 8 % 256, n % 256]

/-- SHA-256 message padding: append `0x80`, zeros, and the 64-bit bit length. -/
def sha256Pad (msg : List Nat) : List Nat :=
  let L := msg.length
  let k := L % 64
  let zeros := if k < 56 then 55 - k else 119 - k
  msg ++ 128 :: List.replicate zeros 0 ++ be64 (8 * L)

/-- Split a byte list into 64-byte blocks (structural recursion on a fuel
bounded by the list length, so the kernel can evaluate it). -/
def chunks64Go (fuel : Nat) (l : List Nat) : List (List Nat) :=
  match fuel, l with
  | _, [] => []
  | 0, _ => []
  | fuel + 1, l => l.take 64 :: chunks64Go fuel (l.drop 64)

/-- Split a byte list into 64-byte blocks. -/
def chunks64 (l : List Nat) : List (List Nat) :=
  chunks64Go l.length l

/-- Group bytes four at a time into big-endian 32-bit words. -/
def bytesToWords : List Nat → List Nat
  | b0 :: b1 :: b2 :: b3 :: rest =>
      (((b0 * 256 + b1) * 256 + b2) * 256 + b3) :: bytesToWords rest
  | _ => []

/-- The 64 SHA-256 round constants. -/
def sha256K : List Nat :=
  [1116352408, 1899447441, 3049323471, 3921009573, 961987163,
   1508970993, 2453635748, 2870763221, 3624381080, 310598401,
   607225278, 1426881987, 1925078388, 2162078206, 2614888103,
   3248222580, 3835390401, 4022224774, 264347078, 604807628,
   770255983, 1249150122, 1555081692, 1996064986, 2554220882,
   2821834349, 2952996808, 3210313671, 3336571891, 3584528711,
   113926993, 338241895, 666307205, 773529912, 1294757372,
   1396182291, 1695183700, 1986661051, 2177026350, 2456956037,
   2730485921, 2820302411, 3259730800, 3345764771, 3516065817,
   3600352804, 4094571909, 275423344, 430227734, 506948616,
   659060556, 883997877, 958139571, 1322822218, 1537002063,
   1747873779, 1955562222, 2024104815, 2227730452, 2361852424,
   2428436474, 2756734187, 3204031479, 3329325298]

/-- The SHA-256 initial hash value. -/
def sha256H0 : List Nat :=
  [1779033703, 3144134277, 1013904242, 2773480762, 1359893119,
   2600822924, 528734635, 1541459225]

/-- Extend 16 message words to the 64-word schedule. -/
def sha256Schedule (ws : List Nat) : Array Nat :=
  (List.range 48).foldl
    (fun acc _ =>
      let w15 := acc.getD (acc.size - 15) 0
      let w2 := acc.getD (acc.size - 2) 0
      let w16 := acc.getD (acc.size - 16) 0
      let w7 := acc.getD (acc.size - 7) 0
      let s0 := rotr32 7 w15 ^^^ rotr32 18 w15 ^^^ (w15 / 2 ^ 3)
      let s1 := rotr32 17 w2 ^^^ rotr32 19 w2 ^^^ (w2 / 2 ^ 10)
      acc.push ((w16 + s0 + w7 + s1) % M32))
    ws.toArray

/-- One SHA-256 compression step over a 64-byte block. -/
def sha256Compress (h : List Nat) (block : List Nat) : List Nat :=
  let w := sha256Schedule (bytesToWords block)
  let g0 := fun (i : Nat) => h.getD i 0
  let st := (List.range 64).foldl
    (fun (t : Nat × Nat × Nat × Nat × Nat × Nat × Nat × Nat) i =>
      let (a, b, c, d, e, f, g, hh) := t
      let s1 := rotr32 6 e ^^^ rotr32 11 e ^^^ rotr32 25 e
      let ch := (e &&& f) ^^^ (not32 e &&& g)
      let temp1 := (hh + s1 + ch + sha256K.getD i 0 + w.getD i 0) % M32
      let s0 := rotr32 2 a ^^^ rotr32 13 a ^^^ rotr32 22 a
      let maj := (a &&& b) ^^^ (a &&& c) ^^^ (b &&& c)
      let temp2 := (s0 + maj) % M32
      ((temp1 + temp2) % M32, a, b, c, (d + temp1) % M32, e, f, g))
    (g0 0, g0 1, g0 2, g0 3, g0 4, g0 5, g0 6, g0 7)
  let (a, b, c, d, e, f, g, hh) := st
  [(g0 0 + a) % M32, (g0 1 + b) % M32, (g0 2 + c) % M32, (g0 3 + d) % M32,
   (g0 4 + e) % M32, (g0 5 + f) % M32, (g0 6 + g) % M32, (g0 7 + hh) % M32]

/-- Big-endian bytes of a 32-bit word. -/
def wordBytes (x : Nat) : List Nat :=
  [x / 2 ^ 24 % 256, x / 2 ^ 16 % 256, x / 2 ^ 8 % 256, x % 256]

/-- SHA-256 of a byte list, as a 32-byte list. -/
def sha256 (msg : List Nat) : List Nat :=
  let final := (chunks64 (sha256Pad msg)).foldl sha256Compress sha256H0
  final.foldr (fun x acc => wordBytes x ++ acc) []

/-- Lower-case hex digit for a value below 16. -/
def hexDigit (n : Nat) : Char :=
  if n < 10 then Char.ofNat (48 + n) else Char.ofNat (87 + n)

/-- Lower-case hex string of a byte list (mirrors `.hexdigest()`). -/
def toHex (bytes : List Nat) : String :=
  String.mk (bytes.foldr (fun b acc => hexDigit (b / 16) :: hexDigit (b % 16) :: acc) [])

/-- HMAC-SHA256 over byte lists (mirrors `hmac.new(key, message, hashlib.sha256)`). -/
def hmac_sha256 (key msg : List Nat) : List Nat :=
  let k0 := if 64 < key.length then sha256 key else key
  let kp := k0 ++ List.replicate (64 - k0.length) 0
  let ipadded := kp.map (· ^^^ 0x36)
  let opadded := kp.map (· ^^^ 0x5c)
  sha256 (opadded ++ sha256 (ipadded ++ msg))

/-! ## JSON values and Python's `json.dumps(..., separators=(',', ':'))` -/

/-- JSON values; objects are ordered key/value lists, matching the insertion
order of a Python `dict`. -/
inductive Json where
  | null
  | bool (b : Bool)
  | num (n : Int)
  | str (s : String)
  | arr (elems : List Json)
  | obj (entries : List (String × Json))

/-- Structural equality of JSON values (Python `==` on parsed JSON). -/
def Json.beq : Json → Json → Bool
  | .null, .null => true
  | .bool a, .bool b => a == b
  | .num a, .num b => a == b
  | .str a, .str b => a == b
  | .arr xs, .arr ys => beqList xs ys
  | .obj xs, .obj ys => beqEntries xs ys
  | _, _ => false
where
  beqList : List Json → List Json → Bool
    | [], [] => true
    | x :: xs, y :: ys => x.beq y && beqList xs ys
    | _, _ => false
  beqEntries : List (String × Json) → List (String × Json) → Bool
    | [], [] => true
    | (k, v) :: xs, (l, w) :: ys => k == l && v.beq w && beqEntries xs ys
    | _, _ => false

/-- Four-digit lower-case hex rendering used by `\u` escapes. -/
def hex4 (n : Nat) : String :=
  String.mk [hexDigit (n / 4096 % 16), hexDigit (n / 256 % 16),
             hexDigit (n / 16 % 16), hexDigit (n % 16)]

/-- Escape one character the way `json.dumps` (default `ensure_ascii=True`) does. -/
def escapeJsonChar (c : Char) : String :=
  if c = '"' then "\\\""
  else if c = '\\' then "\\\\"
  else if c = '\n' then "\\n"
  else if c = '\t' then "\\t"
  else if c = '\r' then "\\r"
  else if c.toNat = 8 then "\\b"
  else if c.toNat = 12 then "\\f"
  else if c.toNat < 32 then "\\u" ++ hex4 c.toNat
  else if c.toNat < 127 then String.singleton c
  else if c.toNat < 65536 then "\\u" ++ hex4 c.toNat
  else
    "\\u" ++ hex4 (55296 + (c.toNat - 65536) / 1024) ++
    "\\u" ++ hex4 (56320 + (c.toNat - 65536) % 1024)

/-- JSON string-literal rendering, quotes included. -/
def escapeJsonString (s : String) : String :=
  "\"" ++ String.join (s.data.map escapeJsonChar) ++ "\""

mutual

/-- `json.dumps(value, separators=(',', ':'))`: compact separators, object keys
rendered in insertion order (no `sort_keys`). -/
def Json.dumps : Json → String
  | .null => "null"
  | .bool true => "true"
  | .bool false => "false"
  | .num n => toString n
  | .str s => escapeJsonString s
  | .arr xs => "[" ++ Json.dumpsList xs ++ "]"
  | .obj es => "\x7b" ++ Json.dumpsEntries es ++ "\x7d"

/-- Comma-joined rendering of array elements. -/
def Json.dumpsList : List Json → String
  | [] => ""
  | [x] => x.dumps
  | x :: xs => x.dumps ++ "," ++ Json.dumpsList xs

/-- Comma-joined rendering of object entries with the `':'` item separator. -/
def Json.dumpsEntries : List (String × Json) → String
  | [] => ""
  | [(k, v)] => escapeJsonString k ++ ":" ++ v.dumps
  | (k, v) :: es => escapeJsonString k ++ ":" ++ v.dumps ++ "," ++ Json.dumpsEntries es

end

/-- The entry list of a JSON object (its Python dict items, in insertion order). -/
def Json.entries : Json → List (String × Json)
  | .obj es => es
  | _ => []

/-- webhooks/tasks.py `sign_payload`: hex HMAC-SHA256 of the compactly
serialized payload under the webhook secret. -/
def sign_payload (payload : Json) (secret : String) : String :=
  toHex (hmac_sha256 (strBytes secret) (strBytes payload.dumps))

/-- Modelled from the spec: the independent verifier of §4.6/§8 recomputes
`HMAC-SHA256(secret, canonical_json(payload))` from the secret and the
serialized payload it holds. -/
def verifier_recompute (secret serialized : String) : String :=
  toHex (hmac_sha256 (strBytes secret) (strBytes serialized))

/-! ## Webhook delivery pipeline (webhooks/tasks.py, webhooks/views.py) -/

/-- Delivery status values of `WebhookDelivery.status`. -/
inductive DeliveryStatus where
  | pending
  | success
  | failed
deriving DecidableEq, Repr

/-- The fields of a `Webhook` row that the dispatcher reads. -/
structure Webhook where
  active : Bool
  secret : String
  url : String
deriving DecidableEq, Repr

/-- The fields of a `WebhookDelivery` row mutated by the dispatcher. -/
structure WebhookDelivery where
  event : String
  payload : Json
  status : DeliveryStatus
  attemptCount : Nat
  responseCode : Option Nat
  responseBody : String

/-- Outcome of the outbound `requests.post`: either an HTTP response or a
`requests.RequestException` (timeout, connection refused, ...). -/
inductive HttpOutcome where
  | response (code : Nat) (body : String)
  | connError (msg : String)
deriving DecidableEq, Repr

/-- Result of one `process_webhook_delivery` task run: the saved delivery row,
whether an HTTP POST was actually made, and the countdown (seconds) of the
automatic `self.retry` reschedule, if one was raised. -/
structure ProcessResult where
  delivery : WebhookDelivery
  attempted : Bool
  retryCountdown : Option Nat

/-- The `X-MCP-Nexus-Signature` header value sent with a delivery. -/
def signatureHeader (w : Webhook) (d : WebhookDelivery) : String :=
  "sha256=" ++ sign_payload d.payload w.secret

/-- webhooks/tasks.py `process_webhook_delivery`: skip inactive webhooks,
increment `attempt_count` before sending, record the response, mark
success on 2xx, and re-raise via `self.retry` with countdown
`60 * 2 ** (attempt_count - 1)` on a 5xx response or connection error while
`attempt_count < 3`. -/
def process_webhook_delivery (w : Webhook) (d : WebhookDelivery) (out : HttpOutcome) :
    ProcessResult :=
  if !w.active then
    { delivery := { d with status := .failed, responseBody := "Webhook is inactive" },
      attempted := false, retryCountdown := none }
  else
    match out with
    | .response code body =>
        if 200 ≤ code ∧ code < 300 then
          { delivery := { d with attemptCount := d.attemptCount + 1, responseCode := some code, responseBody := body.take 1000, status := .success },
            attempted := true, retryCountdown := none }
        else
          { delivery := { d with attemptCount := d.attemptCount + 1, responseCode := some code, responseBody := body.take 1000, status := .failed },
            attempted := true,
            retryCountdown :=
              if 500 ≤ code ∧ d.attemptCount + 1 < 3 then
                some (60 * 2 ^ (d.attemptCount + 1 - 1))
              else none }
    | .connError msg =>
        { delivery := { d with attemptCount := d.attemptCount + 1, status := .failed, responseBody := msg },
          attempted := true,
          retryCountdown :=
            if d.attemptCount + 1 < 3 then some (60 * 2 ^ (d.attemptCount + 1 - 1)) else none }

/-- The automatic delivery trajectory: run `process_webhook_delivery` on each
successive HTTP outcome for as long as an automatic retry is rescheduled.
Returns the final delivery row and the list of backoff countdowns used. -/
def runAutoDelivery (w : Webhook) (d : WebhookDelivery) :
    List HttpOutcome → WebhookDelivery × List Nat
  | [] => (d, [])
  | out :: rest =>
      let r := process_webhook_delivery w d out
      match r.retryCountdown with
      | none => (r.delivery, [])
      | some c =>
          let (dfin, delays) := runAutoDelivery w r.delivery rest
          (dfin, c :: delays)

/-- webhooks/tasks.py `retry_webhook_delivery` together with the guard of the
manual-retry view (webhooks/views.py): only a delivery currently in status
`failed` whose webhook is still active is re-queued through
`process_webhook_delivery`. -/
def retry_webhook_delivery (w : Webhook) (d : WebhookDelivery) (out : HttpOutcome) :
    Option ProcessResult :=
  if d.status = .failed ∧ w.active then some (process_webhook_delivery w d out) else none

/-! ## Server rows and the health aggregator (servers/models.py, verification/models.py) -/

/-- The fields of a `Server` row touched by the trust & liveness core.
Timestamps are `Nat` seconds; `uptime` is exact rational arithmetic in place
of the Python float percentage. -/
structure ServerRow where
  verified : Bool
  isActive : Bool
  uptime : ℚ
  lastChecked : Nat
  statusMessage : Option String
deriving DecidableEq, Repr

/-- servers/models.py field defaults: a freshly registered server
(`verified=False`, `is_active=True`, `uptime=100.0`, `last_checked=auto_now_add`,
`status_message` unset). The registration serializer sets none of these. -/
def newServer (now : Nat) : ServerRow :=
  { verified := false, isActive := true, uptime := 100, lastChecked := now,
    statusMessage := none }

/-- An append-only `HealthCheck` row (only the fields the aggregator reads). -/
structure HRow where
  serverId : Nat
  isUp : Bool
  createdAt : Nat
deriving DecidableEq, Repr

/-- Shorthand for a health row. -/
def hrow (sid : Nat) (b : Bool) (now : Nat) : HRow :=
  { serverId := sid, isUp := b, createdAt := now }

/-- Thirty days in seconds (`timezone.timedelta(days=30)`). -/
def thirtyDays : Nat := 30 * 86400

/-- verification/models.py `HealthCheck.save`: append the new row (with
`created_at = now`), then recompute the server's uptime over the trailing
30-day window, stamp `last_checked`, and flip `is_active` with the
corresponding status message when the up/down state changed. -/
def health_check_save (now : Nat) (rows : List HRow) (sid : Nat) (srv : ServerRow)
    (isUp : Bool) : List HRow × ServerRow :=
  let rows' := rows ++ [{ serverId := sid, isUp := isUp, createdAt := now }]
  let recent := rows'.filter fun r => r.serverId == sid && decide (now - thirtyDays ≤ r.createdAt)
  let total : Nat := recent.length
  if 0 < total then
    let up : Nat := (recent.filter (·.isUp)).length
    let srv1 : ServerRow :=
      { srv with uptime := (up : ℚ) / (total : ℚ) * 100, lastChecked := now }
    let srv2 : ServerRow :=
      if !isUp && srv1.isActive then
        { srv1 with statusMessage := some "Down during automatic health check",
                    isActive := false }
      else if isUp && !srv1.isActive then
        { srv1 with statusMessage := some "Restored during automatic health check",
                    isActive := true }
      else srv1
    (rows', srv2)
  else (rows', srv)

/-- The uptime percentage determined by a fixed set of rows: the fraction of
up rows among the rows for `sid` inside the 30-day window ending at `now`. -/
def windowUptime (now : Nat) (rows : List HRow) (sid : Nat) : ℚ :=
  let recent := rows.filter fun r => r.serverId == sid && decide (now - thirtyDays ≤ r.createdAt)
  ((recent.filter (·.isUp)).length : ℚ) / (recent.length : ℚ) * 100

/-- Insert a batch of probe rows one at a time; each insert runs the full
`HealthCheck.save` aggregation at that row's own timestamp. -/
def insertAll (sid : Nat) (rows : List HRow) (srv : ServerRow) :
    List HRow → List HRow × ServerRow
  | [] => (rows, srv)
  | r :: rest =>
      let next := health_check_save r.createdAt rows sid srv r.isUp
      insertAll sid next.1 next.2 rest

/-- verification/tasks.py `initiate_verification`: probe the new server's
`/health`, record a `HealthCheck` row (running the aggregator), then set
`is_active` and `status_message` from the probe outcome. -/
def initiate_verification (now : Nat) (rows : List HRow) (sid : Nat) (srv : ServerRow)
    (isUp : Bool) : List HRow × ServerRow :=
  let next := health_check_save now rows sid srv isUp
  if isUp then
    (next.1, { next.2 with isActive := true, statusMessage := some "Server is active" })
  else
    (next.1, { next.2 with isActive := false, statusMessage := some "Server is not responding" })

/-! ## The verification state machine (verification/views.py, verification/models.py) -/

/-- `VerificationRequest.status` values. -/
inductive RStatus where
  | pending
  | inProgress
  | completed
  | failed
deriving DecidableEq, Repr

/-- `VerificationCheck.status` values. -/
inductive CStatus where
  | pending
  | passed
  | failed
deriving DecidableEq, Repr

/-- The four fixed `VerificationCheck.check_type` values. -/
inductive CheckType where
  | ownership
  | health
  | capabilities
  | security
deriving DecidableEq, Repr

/-- Chosen `verification_method`. -/
inductive VMethod where
  | dns
  | file
  | metaTag
deriving DecidableEq, Repr

/-- The statuses of the four `VerificationCheck` rows of one request
(`unique_together = [verification_request, check_type]`). -/
structure Checks where
  ownership : CStatus
  health : CStatus
  capabilities : CStatus
  security : CStatus
deriving DecidableEq, Repr

/-- The four checks as pre-seeded at request creation. -/
def Checks.allPending : Checks :=
  { ownership := .pending, health := .pending, capabilities := .pending,
    security := .pending }

/-- A request is non-terminal when its status is `pending` or `in_progress`. -/
def isNonTerminal : RStatus → Bool
  | .pending => true
  | .inProgress => true
  | _ => false

/-- The fields of a `VerificationRequest` row together with its four checks. -/
structure VRequest where
  id : Nat
  serverId : Nat
  status : RStatus
  methodChosen : Option VMethod
  checks : Checks
  completedAt : Option Nat
deriving DecidableEq, Repr

/-- The whole persisted state the verification core reads and writes. -/
structure SysState where
  servers : List (Nat × ServerRow)
  requests : List VRequest
  nextRequestId : Nat
  healthLog : List HRow

/-- The empty store. -/
def initState : SysState :=
  { servers := [], requests := [], nextRequestId := 0, healthLog := [] }

/-- Responses an operation returns to its caller. -/
inductive VResponse where
  | accepted
  | notFound
  | tokenExpired
  | conflict (existingStatus : RStatus)
  | created (requestId : Nat)
  | ownershipFailed
  | verifiedOk (requestId : Nat)
  | checksFailed (failed : List CheckType)
deriving DecidableEq, Repr

/-- The external-world outcomes a completion run observes: token validity at
completion time, the chosen method, the result of the ownership challenge, the
`/health` probe, and the `/capabilities` comparison. -/
structure CompletionEnv where
  tokenValid : Bool
  method : VMethod
  ownershipOk : Bool
  healthUp : Bool
  capsOk : Bool
  now : Nat

/-- Look up a server row by id. -/
def findServer (st : SysState) (sid : Nat) : Option ServerRow :=
  (st.servers.find? (fun p => p.1 == sid)).map (·.2)

/-- Replace the row of server `sid` by `f` of it, leaving other rows alone. -/
def updateServer (st : SysState) (sid : Nat) (f : ServerRow → ServerRow) : SysState :=
  { st with servers := st.servers.map fun p => if p.1 == sid then (p.1, f p.2) else p }

/-- Replace every request with id `rid` by `r'`, leaving other requests alone. -/
def setRequest (st : SysState) (rid : Nat) (r' : VRequest) : SysState :=
  { st with requests := st.requests.map fun r => if r.id == rid then r' else r }

/-- Record a `HealthCheck` row for `sid` and run the save-hook aggregation on
the server row (`HealthCheck.objects.create` during verification). -/
def recordHealth (st : SysState) (sid : Nat) (now : Nat) (isUp : Bool) : SysState :=
  match st.servers.find? (fun p => p.1 == sid) with
  | none => st
  | some p =>
      let next := health_check_save now st.healthLog sid p.2 isUp
      { (updateServer st sid fun _ => next.2) with healthLog := next.1 }

/-- Server registration (`ServerViewSet.perform_create` creating a `Server`
with the model defaults): no-op if the id is taken. -/
def registerServer (st : SysState) (sid : Nat) (now : Nat) : SysState :=
  if (st.servers.find? (fun p => p.1 == sid)).isSome then st
  else { st with servers := st.servers ++ [(sid, newServer now)] }

/-- verification/views.py `RequestVerificationView.post`: look up the server,
reject with a conflict error if an active (pending/in-progress) request
already exists — the error message quotes that request's status — and
otherwise create a new pending request with the four checks pre-seeded. -/
def requestVerification (st : SysState) (sid : Nat) : SysState × VResponse :=
  match st.servers.find? (fun p => p.1 == sid) with
  | none => (st, .notFound)
  | some _ =>
      match st.requests.find? (fun r => r.serverId == sid && isNonTerminal r.status) with
      | some existing => (st, .conflict existing.status)
      | none =>
          let req : VRequest :=
            { id := st.nextRequestId, serverId := sid, status := .pending,
              methodChosen := none, checks := Checks.allPending, completedAt := none }
          ({ st with requests := st.requests ++ [req],
                     nextRequestId := st.nextRequestId + 1 },
           .created req.id)

/-- The check types whose status is `failed`, in the model's `Meta.ordering`
(`check_type` ascending: capabilities, health, ownership, security). -/
def failedCheckTypes (c : Checks) : List CheckType :=
  (if c.capabilities = .failed then [CheckType.capabilities] else []) ++
  (if c.health = .failed then [CheckType.health] else []) ++
  (if c.ownership = .failed then [CheckType.ownership] else []) ++
  (if c.security = .failed then [CheckType.security] else [])

/-- The fully successful request row written by `complete_verification`. -/
def completedRequest (r0 : VRequest) (env : CompletionEnv) : VRequest :=
  { r0 with status := .completed, methodChosen := some env.method,
            checks := { ownership := .passed, health := .passed,
                        capabilities := .passed, security := .passed },
            completedAt := some env.now }

/-- verification/views.py `CompleteVerificationView.post` together with
`VerificationRequest.complete_verification` (verification/models.py):
look up a pending/in-progress request, reject on an expired token, move the
request to in-progress, run the ownership challenge, short-circuit to
`failed` when ownership fails; otherwise run the health probe (recording a
`HealthCheck` row), the capabilities comparison, and the always-passing
security stub, then finalize: all four passed ⇒ request completed,
`completed_at` stamped and `Server.verified` set true; otherwise request
failed with the list of failed checks. -/
def completeVerification (st : SysState) (rid : Nat) (env : CompletionEnv) :
    SysState × VResponse :=
  match st.requests.find? (fun r => r.id == rid && isNonTerminal r.status) with
  | none => (st, .notFound)
  | some r0 =>
      if !env.tokenValid then (st, .tokenExpired)
      else
        let r1 : VRequest := { r0 with status := .inProgress, methodChosen := some env.method }
        let ownStatus : CStatus := if env.ownershipOk then .passed else .failed
        let r2 : VRequest := { r1 with checks := { r1.checks with ownership := ownStatus } }
        if env.ownershipOk then
          let st1 := recordHealth st r0.serverId env.now env.healthUp
          let healthStatus : CStatus := if env.healthUp then .passed else .failed
          let capsStatus : CStatus := if env.capsOk then .passed else .failed
          let newChecks : Checks :=
            { ownership := r2.checks.ownership, health := healthStatus,
              capabilities := capsStatus, security := .passed }
          let r5 : VRequest := { r2 with checks := newChecks }
          let allPassed :=
            r5.checks.ownership == .passed && r5.checks.health == .passed &&
            r5.checks.capabilities == .passed && r5.checks.security == .passed
          if allPassed then
            let r6 : VRequest := { r5 with status := .completed, completedAt := some env.now }
            let st2 := setRequest st1 rid r6
            (updateServer st2 r0.serverId fun s => { s with verified := true },
             .verifiedOk rid)
          else
            let r6 : VRequest := { r5 with status := .failed }
            (setRequest st1 rid r6, .checksFailed (failedCheckTypes r6.checks))
        else
          (setRequest st rid { r2 with status := .failed }, .ownershipFailed)

/-- The operations of the trust & liveness core that touch server rows or
verification requests. -/
inductive Op where
  | register (sid : Nat) (now : Nat)
  | request (sid : Nat)
  | complete (rid : Nat) (env : CompletionEnv)
  | probe (sid : Nat) (now : Nat) (isUp : Bool)
  | initiate (sid : Nat) (now : Nat) (isUp : Bool)

/-- One operation applied to the store. `probe` is the scheduled
`check_server_health` task (a `HealthCheck` insert running the aggregator);
`initiate` is `initiate_verification` after registration. -/
def applyOp (st : SysState) : Op → SysState × VResponse
  | .register sid now => (registerServer st sid now, .accepted)
  | .request sid => requestVerification st sid
  | .complete rid env => completeVerification st rid env
  | .probe sid now isUp => (recordHealth st sid now isUp, .accepted)
  | .initiate sid now isUp =>
      match st.servers.find? (fun p => p.1 == sid) with
      | none => (st, .notFound)
      | some p =>
          let next := initiate_verification now st.healthLog sid p.2 isUp
          ({ (updateServer st sid fun _ => next.2) with healthLog := next.1 }, .accepted)

/-- States reachable from the empty store by core operations. -/
inductive Reachable : SysState → Prop
  | init : Reachable initState
  | step {st : SysState} (op : Op) : Reachable st → Reachable (applyOp st op).1

/-- The verified flag of server `sid`, when the server exists. -/
def serverVerified (st : SysState) (sid : Nat) : Option Bool :=
  (findServer st sid).map (·.verified)

/-- The number of active (pending/in-progress) requests of server `sid`. -/
def activeRequestCount (st : SysState) (sid : Nat) : Nat :=
  (st.requests.filter (fun r => r.serverId == sid && isNonTerminal r.status)).length

/-! ## The capabilities check (verification/views.py `_verify_capabilities`) -/

/-- Outcome of `requests.get(f"{url}/capabilities")`: an exception, or a
response whose body either parses as JSON or raises `ValueError` (carrying the
raw text). -/
inductive CapResponse where
  | exn (msg : String)
  | resp (code : Nat) (body : Except String Json)

/-- What `_verify_capabilities` writes into the `capabilities`
`VerificationCheck` row, plus its return value. -/
structure CheckOutcome where
  passed : Bool
  status : CStatus
  message : String
  details : Json

/-- First value under a key in a JSON object's entries (Python `cap['name']`;
dict keys are unique, so first occurrence). -/
def lookupEntry : List (String × Json) → String → Option Json
  | [], _ => none
  | (k, v) :: rest, key => if k = key then some v else lookupEntry rest key

/-- Names collected from a list of capability objects: the `'name'` value of
every element that is a dict containing the key. -/
def capNames (caps : List Json) : List Json :=
  caps.filterMap fun c =>
    match c with
    | .obj es => lookupEntry es "name"
    | _ => none

/-- Extraction of reported capability names from the parsed body: a top-level
list of `{name, ...}` objects, or a `{"capabilities": [...]}` wrapper. A
non-iterable wrapper value raises a `TypeError` that escapes to the generic
`except Exception` handler; iterating a string or a dict yields no dict
elements, and any other shape leaves the reported set empty. -/
def extractReported : Json → Except String (List Json)
  | .arr caps => .ok (capNames caps)
  | .obj es =>
      match lookupEntry es "capabilities" with
      | some (.arr caps) => .ok (capNames caps)
      | some (.str _) => .ok []
      | some (.obj _) => .ok []
      | some _ => .error "argument of type is not iterable"
      | none => .ok []
  | _ => .ok []

/-- `registered_capabilities - server_capabilities` (which registered names
are absent from the reported values), in registered order. -/
def missingCaps (registered : List String) (reported : List Json) : List String :=
  registered.filter fun n => !(reported.any fun v => v.beq (.str n))

/-- verification/views.py `_verify_capabilities`: fetch `/capabilities`, fail
on a non-200 status or malformed JSON with a diagnostic, otherwise extract the
reported names, compute the missing set, and pass iff nothing is missing. -/
def verify_capabilities (registered : List String) (resp : CapResponse) : CheckOutcome :=
  match resp with
  | .exn msg =>
      { passed := false, status := .failed,
        message := "Error checking capabilities: " ++ msg,
        details := .obj [("error", .str msg)] }
  | .resp code body =>
      if code ≠ 200 then
        { passed := false, status := .failed,
          message := "Failed to retrieve capabilities (status: " ++ toString code ++ ")",
          details := .obj [("status_code", .num code)] }
      else
        match body with
        | .error text =>
            { passed := false, status := .failed,
              message := "Invalid capabilities format (not valid JSON)",
              details := .obj [("response", .str (text.take 500))] }
        | .ok j =>
            match extractReported j with
            | .error msg =>
                { passed := false, status := .failed,
                  message := "Error checking capabilities: " ++ msg,
                  details := .obj [("error", .str msg)] }
            | .ok reported =>
                let missing := missingCaps registered reported
                if missing.isEmpty then
                  { passed := true, status := .passed,
                    message := "All registered capabilities are available",
                    details := .obj
                      [("registered_capabilities", .arr (registered.map .str)),
                       ("server_capabilities", .arr reported)] }
                else
                  { passed := false, status := .failed,
                    message := "Missing capabilities: " ++ String.intercalate ", " missing,
                    details := .obj
                      [("registered_capabilities", .arr (registered.map .str)),
                       ("server_capabilities", .arr reported),
                       ("missing_capabilities", .arr (missing.map .str))] }

/-! ## The meta-tag challenge (verification/views.py `_verify_meta_tag`) -/

/-- Outcome of a plain `requests.get`: exception, or response code and text. -/
inductive FetchResult where
  | exn (msg : String)
  | resp (code : Nat) (body : String)

/-- What a `_verify_*` challenge function writes into the ownership check. -/
structure ChallengeResult where
  success : Bool
  message : String
  details : Json

/-- ASCII whitespace recognized by the pattern's `\s`. -/
def isPySpace (c : Char) : Bool :=
  c = ' ' || c = '\t' || c = '\n' || c = '\r' || c.toNat = 11 || c.toNat = 12

/-- Either quote style accepted by the pattern's `['"]` character classes. -/
def isQuoteChar (c : Char) : Bool :=
  c = Char.ofNat 39 || c = '"'

/-- Case-insensitive literal match (the literal is given lower-case); returns
the rest of the input on success. -/
def matchLitCI : List Char → List Char → Option (List Char)
  | [], s => some s
  | c :: lit, x :: s => if x.toLower = c then matchLitCI lit s else none
  | _ :: _, [] => none

/-- `\s+`: at least one whitespace character, consumed greedily. -/
def takeSpaces1 (s : List Char) : Option (List Char) :=
  match s with
  | x :: rest => if isPySpace x then some (rest.dropWhile isPySpace) else none
  | [] => none

/-- A single quote character of either style. -/
def matchQuote : List Char → Option (List Char)
  | x :: rest => if isQuoteChar x then some rest else none
  | [] => none

/-- `([^'"]+)`: a non-empty greedy run of non-quote characters. -/
def takeGroup1 (s : List Char) : Option (List Char × List Char) :=
  let g := s.takeWhile fun c => !isQuoteChar c
  if g.isEmpty then none
  else some (g, s.dropWhile fun c => !isQuoteChar c)

/-- One attempt to match the compiled pattern
`<meta\s+name=['"]mcp-verification['"]\s+content=['"]([^'"]+)['"]`
(re.IGNORECASE) at the head of the input, returning the captured group. -/
def matchMetaAt (s : List Char) : Option String :=
  (matchLitCI "<meta".toList s).bind fun s =>
  (takeSpaces1 s).bind fun s =>
  (matchLitCI "name=".toList s).bind fun s =>
  (matchQuote s).bind fun s =>
  (matchLitCI "mcp-verification".toList s).bind fun s =>
  (matchQuote s).bind fun s =>
  (takeSpaces1 s).bind fun s =>
  (matchLitCI "content=".toList s).bind fun s =>
  (matchQuote s).bind fun s =>
  (takeGroup1 s).bind fun g =>
  (matchQuote g.2).map fun _ => String.mk g.1

/-- `meta_pattern.search(...)`: the captured group of the leftmost match. -/
def findMetaContent : List Char → Option String
  | [] => none
  | s@(_ :: rest) =>
      match matchMetaAt s with
      | some g => some g
      | none => findMetaContent rest

/-- The captured groups of matches starting at every position (used to state
"the HTML contains a matching meta tag somewhere"). -/
def allMetaContents : List Char → List String
  | [] => []
  | s@(_ :: rest) =>
      match matchMetaAt s with
      | some g => g :: allMetaContents rest
      | none => allMetaContents rest

/-- verification/views.py `_verify_meta_tag`: GET the page; on status 200,
search for the meta-tag pattern and succeed iff the first match's content
equals the token; any exception is caught and reported as a failure. -/
def verify_meta_tag (url : String) (token : String) (r : FetchResult) : ChallengeResult :=
  match r with
  | .exn msg =>
      { success := false, message := "Request error: " ++ msg,
        details := .obj [("url", .str url), ("error", .str msg)] }
  | .resp code body =>
      if code = 200 then
        match findMetaContent body.toList with
        | some v =>
            if v = token then
              { success := true, message := "Meta tag verification successful",
                details := .obj [("url", .str url)] }
            else
              { success := false, message := "Could not find matching meta tag",
                details := .obj
                  [("url", .str url),
                   ("error", .str "Meta tag not found or token doesn't match")] }
        | none =>
            { success := false, message := "Could not find matching meta tag",
              details := .obj
                [("url", .str url),
                 ("error", .str "Meta tag not found or token doesn't match")] }
      else
        { success := false,
          message := "Meta tag verification failed (status: " ++ toString code ++ ")",
          details := .obj [("url", .str url), ("status_code", .num code)] }

/-! ## Concrete fixtures used to instantiate the theorems -/

/-- An active webhook. -/
def wActive : Webhook :=
  { active := true, secret := "s", url := "https://hook.example/" }

/-- A freshly created delivery row (`status='pending'`, `attempt_count=0`). -/
def freshDelivery : WebhookDelivery :=
  { event := "server.verified", payload := .obj [("server_id", .str "X")],
    status := .pending, attemptCount := 0, responseCode := none, responseBody := "" }

/-- A delivery that already failed after three attempts. -/
def exhaustedDelivery : WebhookDelivery :=
  { freshDelivery with status := .failed, attemptCount := 3 }

/-- The store after registering server `0` at time `0`. -/
def stReg : SysState := (applyOp initState (.register 0 0)).1

/-- The store after additionally creating a verification request (id `0`). -/
def stReq : SysState := (applyOp stReg (.request 0)).1

/-- A completion environment in which every external check succeeds. -/
def envOk : CompletionEnv :=
  { tokenValid := true, method := .dns, ownershipOk := true, healthUp := true,
    capsOk := true, now := 7 }

/-- A completion environment whose ownership challenge fails. -/
def envOwnFail : CompletionEnv := { envOk with ownershipOk := false }

/-- A completion environment in which ownership passes but `/health` is down. -/
def envHealthDown : CompletionEnv := { envOk with healthUp := false }

/-- Two probe rows for server `0` inside one 30-day window. -/
def probesUpDown : List HRow :=
  [{ serverId := 0, isUp := true, createdAt := 100 },
   { serverId := 0, isUp := false, createdAt := 200 }]

/-- The same two probe rows in the opposite insertion order. -/
def probesDownUp : List HRow :=
  [{ serverId := 0, isUp := false, createdAt := 200 },
   { serverId := 0, isUp := true, createdAt := 100 }]

/-! # Theorems -/

/-! ## Health aggregator lemmas -/

/-- The row appended by one `HealthCheck.save`. -/
theorem hcs_log (now : Nat) (rows : List HRow) (sid : Nat) (srv : ServerRow) (b : Bool) :
    (health_check_save now rows sid srv b).1 = rows ++ [hrow sid b now] := by
  unfold health_check_save hrow
  dsimp only
  split <;> rfl

/-- `HealthCheck.save` never touches the verified flag. -/
theorem hcs_verified (now : Nat) (rows : List HRow) (sid : Nat) (srv : ServerRow) (b : Bool) :
    (health_check_save now rows sid srv b).2.verified = srv.verified := by
  unfold health_check_save
  dsimp only
  split
  · split <;> (try split) <;> rfl
  · rfl

/-- The row inserted by `HealthCheck.save` always lies inside its own 30-day
window, so the recomputation branch is always taken. -/
theorem hcs_recent_pos (now : Nat) (rows : List HRow) (sid : Nat) (b : Bool) :
    0 < ((rows ++ [hrow sid b now]).filter fun r =>
          r.serverId == sid && decide (now - thirtyDays ≤ r.createdAt)).length := by
  apply List.length_pos.mpr
  intro hnil
  have hmem : hrow sid b now ∈
      (rows ++ [hrow sid b now]).filter fun r =>
          r.serverId == sid && decide (now - thirtyDays ≤ r.createdAt) := by
    apply List.mem_filter.mpr
    refine ⟨List.mem_append_right _ (List.mem_singleton.mpr rfl), ?_⟩
    simp [hrow, Nat.sub_le]
  rw [hnil] at hmem
  exact absurd hmem (List.not_mem_nil _)

/-- After one `HealthCheck.save` the stored uptime is the full-window ratio
over the table including the new row. -/
theorem hcs_uptime (now : Nat) (rows : List HRow) (sid : Nat) (srv : ServerRow) (b : Bool) :
    (health_check_save now rows sid srv b).2.uptime =
      windowUptime now (rows ++ [hrow sid b now]) sid := by
  unfold health_check_save windowUptime hrow
  dsimp only
  split
  · split <;> (try split) <;> rfl
  · next hfalse => exact absurd (hcs_recent_pos now rows sid b) hfalse

/-- After one `HealthCheck.save` the server's `last_checked` is the inserted
row's timestamp. -/
theorem hcs_lastChecked (now : Nat) (rows : List HRow) (sid : Nat) (srv : ServerRow) (b : Bool) :
    (health_check_save now rows sid srv b).2.lastChecked = now := by
  unfold health_check_save
  dsimp only
  split
  · split <;> (try split) <;> rfl
  · next hfalse => exact absurd (hcs_recent_pos now rows sid b) hfalse

/-- Sequentially inserting rows that all belong to `sid` and all lie inside
each other's 30-day windows ends with the plain up/total ratio over the whole
table — the full-window recompute, independent of any running counter. -/
theorem insertAll_uptime (sid : Nat) (l : List HRow) :
    ∀ (rows : List HRow) (srv : ServerRow), l ≠ [] →
      (∀ r ∈ rows ++ l, r.serverId = sid) →
      (∀ r ∈ rows ++ l, ∀ s ∈ l, s.createdAt - thirtyDays ≤ r.createdAt) →
      (insertAll sid rows srv l).2.uptime =
        (((rows ++ l).filter (·.isUp)).length : ℚ) / ((rows ++ l).length : ℚ) * 100 := by
  induction l with
  | nil => exact fun rows srv hne _ _ => absurd rfl hne
  | cons a l ih =>
      intro rows srv _ h2 h3
      have ha : a.serverId = sid := h2 a (List.mem_append_right _ (List.mem_cons_self a l))
      have hrow_eq : hrow sid a.isUp a.createdAt = a := by
        cases a with
        | mk s u c => cases ha; rfl
      have hstep : insertAll sid rows srv (a :: l) =
          insertAll sid (rows ++ [a]) (health_check_save a.createdAt rows sid srv a.isUp).2 l := by
        simp only [insertAll]
        rw [hcs_log, hrow_eq]
      rw [hstep]
      cases l with
      | nil =>
          simp only [insertAll]
          rw [hcs_uptime, hrow_eq]
          unfold windowUptime
          have hfil : (rows ++ [a]).filter
              (fun r => r.serverId == sid && decide (a.createdAt - thirtyDays ≤ r.createdAt)) =
              rows ++ [a] := by
            apply List.filter_eq_self.mpr
            intro r hr
            have h2r := h2 r hr
            have h3r := h3 r hr a (List.mem_cons_self a [])
            simp [h2r, h3r]
          rw [hfil]
      | cons b l' =>
          have h2' : ∀ r ∈ (rows ++ [a]) ++ b :: l', r.serverId = sid := by
            intro r hr
            apply h2 r
            simp only [List.append_assoc, List.singleton_append] at hr
            exact hr
          have h3' : ∀ r ∈ (rows ++ [a]) ++ b :: l', ∀ s ∈ b :: l',
              s.createdAt - thirtyDays ≤ r.createdAt := by
            intro r hr s hs
            apply h3 r
            · simp only [List.append_assoc, List.singleton_append] at hr
              exact hr
            · exact List.mem_cons_of_mem a hs
          have := ih (rows ++ [a]) (health_check_save a.createdAt rows sid srv a.isUp).2
            (by simp) h2' h3'
          rw [this]
          simp only [List.append_assoc, List.singleton_append]

/-- C6: on every HealthCheck insert, uptime is recomputed over the trailing
30-day window as `up_count / total_count * 100` (0 if no checks lie in the
window — a case the inserted row itself makes unreachable), `last_checked` is
set to the inserted check's timestamp, and for a fixed multiset of window rows
the resulting uptime does not depend on insertion order. -/
theorem c6_uptime_full_window_recompute
    (now : Nat) (rows : List HRow) (sid : Nat) (srv srv2 : ServerRow) (isUp : Bool)
    (probes1 probes2 : List HRow) :
    ((health_check_save now rows sid srv isUp).2.uptime =
      if ((rows ++ [hrow sid isUp now]).filter fun r =>
            r.serverId == sid && decide (now - thirtyDays ≤ r.createdAt)).length = 0
      then 0
      else windowUptime now (rows ++ [hrow sid isUp now]) sid) ∧
    ((health_check_save now rows sid srv isUp).2.lastChecked = now) ∧
    (probes1.Perm probes2 → probes1 ≠ [] →
      (∀ r ∈ probes1, r.serverId = sid) →
      (∀ r ∈ probes1, ∀ s ∈ probes1, s.createdAt - thirtyDays ≤ r.createdAt) →
      (insertAll sid [] srv2 probes1).2.uptime = (insertAll sid [] srv2 probes2).2.uptime) := by
  refine ⟨?_, hcs_lastChecked now rows sid srv isUp, ?_⟩
  · rw [hcs_uptime, if_neg]
    exact Nat.pos_iff_ne_zero.mp (hcs_recent_pos now rows sid isUp)
  · intro hperm hne h2 h3
    have hne2 : probes2 ≠ [] := by
      intro h
      exact hne (List.Perm.eq_nil (h ▸ hperm))
    have h2b : ∀ r ∈ probes2, r.serverId = sid :=
      fun r hr => h2 r (hperm.mem_iff.mpr hr)
    have h3b : ∀ r ∈ probes2, ∀ s ∈ probes2, s.createdAt - thirtyDays ≤ r.createdAt :=
      fun r hr s hs => h3 r (hperm.mem_iff.mpr hr) s (hperm.mem_iff.mpr hs)
    rw [insertAll_uptime sid probes1 [] srv2 hne (by simpa using h2) (by simpa using h3),
        insertAll_uptime sid probes2 [] srv2 hne2 (by simpa using h2b) (by simpa using h3b)]
    simp only [List.nil_append]
    have hfl : (List.filter (fun x => x.isUp) probes1).length =
        (List.filter (fun x => x.isUp) probes2).length := by
      rw [← List.countP_eq_length_filter, ← List.countP_eq_length_filter]
      exact List.Perm.countP_eq _ hperm
    rw [hfl, hperm.length_eq]

/-- C6 witness: inserting an up probe then a down probe for server 0 yields
the same uptime as inserting them in the opposite order. -/
theorem c6_witness :
    (insertAll 0 [] (newServer 0) probesUpDown).2.uptime =
      (insertAll 0 [] (newServer 0) probesDownUp).2.uptime :=
  (c6_uptime_full_window_recompute 0 [] 0 (newServer 0) (newServer 0) true
      probesUpDown probesDownUp).2.2
    (List.Perm.swap _ _ _) (by decide) (by decide) (by decide)

/-! ## Webhook delivery lemmas -/

/-- Processing a delivery of an inactive webhook: marked failed, no HTTP
attempt, no reschedule. -/
theorem process_inactive_eq (w : Webhook) (d : WebhookDelivery) (out : HttpOutcome)
    (hw : w.active = false) :
    process_webhook_delivery w d out =
      { delivery := { d with status := .failed, responseBody := "Webhook is inactive" },
        attempted := false, retryCountdown := none } := by
  unfold process_webhook_delivery
  rw [hw]
  rfl

/-- Processing an HTTP response for an active webhook, fully unfolded. -/
theorem process_response_eq (w : Webhook) (d : WebhookDelivery) (code : Nat) (body : String)
    (hw : w.active = true) :
    process_webhook_delivery w d (.response code body) =
      (if 200 ≤ code ∧ code < 300 then
        { delivery := { d with attemptCount := d.attemptCount + 1, responseCode := some code, responseBody := body.take 1000, status := .success },
          attempted := true, retryCountdown := none }
      else
        { delivery := { d with attemptCount := d.attemptCount + 1, responseCode := some code, responseBody := body.take 1000, status := .failed },
          attempted := true,
          retryCountdown := if 500 ≤ code ∧ d.attemptCount + 1 < 3 then
              some (60 * 2 ^ (d.attemptCount + 1 - 1)) else none }) := by
  unfold process_webhook_delivery
  rw [hw]
  rfl

/-- Processing a connection-level exception for an active webhook. -/
theorem process_connError_eq (w : Webhook) (d : WebhookDelivery) (msg : String)
    (hw : w.active = true) :
    process_webhook_delivery w d (.connError msg) =
      { delivery := { d with attemptCount := d.attemptCount + 1, status := .failed, responseBody := msg },
        attempted := true,
        retryCountdown := if d.attemptCount + 1 < 3 then
            some (60 * 2 ^ (d.attemptCount + 1 - 1)) else none } := by
  unfold process_webhook_delivery
  rw [hw]
  rfl

/-- When `process_webhook_delivery` reschedules itself, the webhook was
active, the attempt counter was just incremented and is still below 3, the
countdown follows the `60 * 2 ** (attempt_count - 1)` backoff, and the
outcome was a connection error or a 5xx response. -/
theorem process_countdown_some (w : Webhook) (d : WebhookDelivery) (out : HttpOutcome) (c : Nat)
    (h : (process_webhook_delivery w d out).retryCountdown = some c) :
    w.active = true ∧
    (process_webhook_delivery w d out).delivery.attemptCount = d.attemptCount + 1 ∧
    d.attemptCount + 1 < 3 ∧ c = 60 * 2 ^ d.attemptCount ∧
    ((∃ msg, out = .connError msg) ∨ ∃ code body, out = .response code body ∧ 500 ≤ code) := by
  by_cases hw : w.active = true
  case neg =>
    rw [process_inactive_eq w d out (by simpa using hw)] at h
    exact Option.noConfusion h
  case pos =>
    refine ⟨hw, ?_⟩
    cases out with
    | response code body =>
        rw [process_response_eq w d code body hw] at h ⊢
        by_cases h2 : 200 ≤ code ∧ code < 300
        · rw [if_pos h2] at h
          exact Option.noConfusion h
        · rw [if_neg h2] at h ⊢
          dsimp only at h ⊢
          by_cases hr : 500 ≤ code ∧ d.attemptCount + 1 < 3
          · rw [if_pos hr] at h
            have hc := Option.some.inj h
            refine ⟨rfl, hr.2, ?_, Or.inr ⟨code, body, rfl, hr.1⟩⟩
            rw [← hc, Nat.add_sub_cancel]
          · rw [if_neg hr] at h
            exact Option.noConfusion h
    | connError msg =>
        rw [process_connError_eq w d msg hw] at h ⊢
        dsimp only at h ⊢
        by_cases hr : d.attemptCount + 1 < 3
        · rw [if_pos hr] at h
          have hc := Option.some.inj h
          refine ⟨rfl, hr, ?_, Or.inl ⟨msg, rfl⟩⟩
          rw [← hc, Nat.add_sub_cancel]
        · rw [if_neg hr] at h
          exact Option.noConfusion h

/-- One processing run advances the attempt counter by at most one and never
decreases it. -/
theorem process_attemptCount (w : Webhook) (d : WebhookDelivery) (out : HttpOutcome) :
    (process_webhook_delivery w d out).delivery.attemptCount = d.attemptCount ∨
    (process_webhook_delivery w d out).delivery.attemptCount = d.attemptCount + 1 := by
  by_cases hw : w.active = true
  case neg =>
    rw [process_inactive_eq w d out (by simpa using hw)]
    exact Or.inl rfl
  case pos =>
    cases out with
    | response code body =>
        rw [process_response_eq w d code body hw]
        by_cases h2 : 200 ≤ code ∧ code < 300
        · rw [if_pos h2]; exact Or.inr rfl
        · rw [if_neg h2]; exact Or.inr rfl
    | connError msg =>
        rw [process_connError_eq w d msg hw]
        exact Or.inr rfl

/-- Along the automatic trajectory the attempt counter stays at or below 3
whenever it starts below 3. -/
theorem runAuto_attemptCount_le (w : Webhook) (outs : List HttpOutcome) :
    ∀ d : WebhookDelivery, d.attemptCount < 3 →
      (runAutoDelivery w d outs).1.attemptCount ≤ 3 := by
  induction outs with
  | nil => exact fun d hd => Nat.le_of_lt hd
  | cons out rest ih =>
      intro d hd
      simp only [runAutoDelivery]
      cases hr : (process_webhook_delivery w d out).retryCountdown with
      | none =>
          rcases process_attemptCount w d out with hac | hac <;> simp [hac] <;> omega
      | some c =>
          have hs := process_countdown_some w d out c hr
          have hrec := ih (process_webhook_delivery w d out).delivery
            (by rw [hs.2.1]; exact hs.2.2.1)
          simpa using hrec

/-- Every automatic backoff countdown is 60 or 120 seconds. -/
theorem runAuto_delays (w : Webhook) (outs : List HttpOutcome) :
    ∀ (d : WebhookDelivery) (c : Nat), c ∈ (runAutoDelivery w d outs).2 →
      c = 60 ∨ c = 120 := by
  induction outs with
  | nil => intro d c hc; simp [runAutoDelivery] at hc
  | cons out rest ih =>
      intro d c hc
      simp only [runAutoDelivery] at hc
      cases hr : (process_webhook_delivery w d out).retryCountdown with
      | none => simp [hr] at hc
      | some c0 =>
          simp only [hr] at hc
          rcases List.mem_cons.mp hc with hc0 | hcrest
          · have hs := process_countdown_some w d out c0 hr
            have hlt : d.attemptCount + 1 < 3 := hs.2.2.1
            have hc0' : c0 = 60 * 2 ^ d.attemptCount := hs.2.2.2.1
            subst hc0
            have h01 : d.attemptCount = 0 ∨ d.attemptCount = 1 := by omega
            rcases h01 with h0 | h0 <;> rw [h0] at hc0'
            · left; simpa using hc0'
            · right; simpa using hc0'
          · exact ih _ c hcrest

/-- At most two automatic reschedules happen, counting down from the current
attempt count. -/
theorem runAuto_delay_count (w : Webhook) (outs : List HttpOutcome) :
    ∀ d : WebhookDelivery, (runAutoDelivery w d outs).2.length ≤ 2 - d.attemptCount := by
  induction outs with
  | nil => intro d; simp [runAutoDelivery]
  | cons out rest ih =>
      intro d
      simp only [runAutoDelivery]
      cases hr : (process_webhook_delivery w d out).retryCountdown with
      | none => simp
      | some c =>
          have hs := process_countdown_some w d out c hr
          have hrec := ih (process_webhook_delivery w d out).delivery
          rw [hs.2.1] at hrec
          simp only [List.length_cons]
          have hlt : d.attemptCount + 1 < 3 := hs.2.2.1
          omega

/-- Processing a delivery of an active webhook always makes one HTTP attempt
and increments the attempt counter by exactly one. -/
theorem process_active_run (w : Webhook) (d : WebhookDelivery) (out : HttpOutcome)
    (hw : w.active = true) :
    (process_webhook_delivery w d out).attempted = true ∧
    (process_webhook_delivery w d out).delivery.attemptCount = d.attemptCount + 1 := by
  cases out with
  | response code body =>
      rw [process_response_eq w d code body hw]
      by_cases h2 : 200 ≤ code ∧ code < 300
      · rw [if_pos h2]; exact ⟨rfl, rfl⟩
      · rw [if_neg h2]; exact ⟨rfl, rfl⟩
  | connError msg =>
      rw [process_connError_eq w d msg hw]
      exact ⟨rfl, rfl⟩

/-- Once the attempt counter has reached 2 before a run (so 3 after the
increment), no automatic retry is ever rescheduled. -/
theorem process_no_retry_of_exhausted (w : Webhook) (d : WebhookDelivery) (out : HttpOutcome)
    (h2 : 2 ≤ d.attemptCount) :
    (process_webhook_delivery w d out).retryCountdown = none := by
  by_cases hw : w.active = true
  case neg => rw [process_inactive_eq w d out (by simpa using hw)]
  case pos =>
    cases out with
    | response code body =>
        rw [process_response_eq w d code body hw]
        by_cases hok : 200 ≤ code ∧ code < 300
        · rw [if_pos hok]
        · rw [if_neg hok]
          dsimp only
          rw [if_neg]
          intro hr
          omega
    | connError msg =>
        rw [process_connError_eq w d msg hw]
        dsimp only
        rw [if_neg]
        omega

/-- C4 (amended): automatic retries happen only on a 5xx response or a
connection-level exception and only while `attempt_count < 3` (at most 3
attempts for a fresh delivery), with backoff `60 * 2 ** (attempt_count - 1)`;
only the delays 60s and 120s are reachable; a 4xx response never triggers a
retry and leaves the delivery failed; once three attempts were made, no
automatic retry is rescheduled. -/
theorem c4_webhook_retry_policy (w : Webhook) (d : WebhookDelivery) (out : HttpOutcome)
    (outs : List HttpOutcome) :
    (∀ c, (process_webhook_delivery w d out).retryCountdown = some c →
       ((∃ msg, out = .connError msg) ∨ ∃ code body, out = .response code body ∧ 500 ≤ code) ∧
       d.attemptCount + 1 < 3 ∧ c = 60 * 2 ^ d.attemptCount) ∧
    (∀ code body, out = .response code body → 400 ≤ code → code < 500 →
       (process_webhook_delivery w d out).retryCountdown = none ∧
       (process_webhook_delivery w d out).delivery.status = .failed) ∧
    (d.attemptCount = 0 →
       (runAutoDelivery w d outs).1.attemptCount ≤ 3 ∧
       (runAutoDelivery w d outs).2.length ≤ 2 ∧
       ∀ c ∈ (runAutoDelivery w d outs).2, c = 60 ∨ c = 120) ∧
    (2 ≤ d.attemptCount → (process_webhook_delivery w d out).retryCountdown = none) := by
  refine ⟨?_, ?_, ?_, process_no_retry_of_exhausted w d out⟩
  · intro c hc
    have hs := process_countdown_some w d out c hc
    exact ⟨hs.2.2.2.2, hs.2.2.1, hs.2.2.2.1⟩
  · intro code body hout h4 h5
    subst hout
    by_cases hw : w.active = true
    case neg =>
      rw [process_inactive_eq w d _ (by simpa using hw)]
      exact ⟨rfl, rfl⟩
    case pos =>
      rw [process_response_eq w d code body hw]
      have hn2 : ¬(200 ≤ code ∧ code < 300) := fun hx => by omega
      rw [if_neg hn2]
      refine ⟨?_, rfl⟩
      dsimp only
      rw [if_neg]
      intro hx
      omega
  · intro h0
    refine ⟨runAuto_attemptCount_le w outs d (by omega), ?_, runAuto_delays w outs d⟩
    have := runAuto_delay_count w outs d
    omega

/-- C4 counterexample: a fresh delivery answered 503 on every attempt is
retried with delays 60s and 120s only — the claimed third backoff of 240s
never occurs, and the delivery ends failed with exactly 3 attempts. -/
theorem c4_counterexample :
    (runAutoDelivery wActive freshDelivery
        [.response 503 "e", .response 503 "e", .response 503 "e"]).2 = [60, 120] ∧
    (runAutoDelivery wActive freshDelivery
        [.response 503 "e", .response 503 "e", .response 503 "e"]).2 ≠ [60, 120, 240] ∧
    (runAutoDelivery wActive freshDelivery
        [.response 503 "e", .response 503 "e", .response 503 "e"]).1.status = .failed ∧
    (runAutoDelivery wActive freshDelivery
        [.response 503 "e", .response 503 "e", .response 503 "e"]).1.attemptCount = 3 := by
  refine ⟨by decide, by decide, by decide, by decide⟩

/-- C4 witness: a 404 response triggers no retry and leaves the delivery
failed. -/
theorem c4_witness :
    (process_webhook_delivery wActive freshDelivery (.response 404 "nf")).retryCountdown = none ∧
    (process_webhook_delivery wActive freshDelivery (.response 404 "nf")).delivery.status =
      .failed :=
  (c4_webhook_retry_policy wActive freshDelivery (.response 404 "nf") []).2.1 404 "nf" rfl
    (by decide) (by decide)

/-- C10: a manual retry of a failed delivery of an active webhook re-runs the
processing, which makes an HTTP attempt and increments `attempt_count`
unconditionally — also past 3 — while the `< 3` guard only suppresses the
automatic reschedule. -/
theorem c10_manual_retry_unbounded (w : Webhook) (d : WebhookDelivery) (out : HttpOutcome)
    (hd : d.status = .failed) (hw : w.active = true) :
    retry_webhook_delivery w d out = some (process_webhook_delivery w d out) ∧
    (process_webhook_delivery w d out).attempted = true ∧
    (process_webhook_delivery w d out).delivery.attemptCount = d.attemptCount + 1 ∧
    (3 ≤ d.attemptCount →
      3 < (process_webhook_delivery w d out).delivery.attemptCount ∧
      (process_webhook_delivery w d out).retryCountdown = none) := by
  have hrun := process_active_run w d out hw
  refine ⟨?_, hrun.1, hrun.2, ?_⟩
  · unfold retry_webhook_delivery
    rw [if_pos ⟨hd, hw⟩]
  · intro h3
    exact ⟨by rw [hrun.2]; omega, process_no_retry_of_exhausted w d out (by omega)⟩

/-- C10 witness: manually retrying a failed delivery that already has three
attempts performs a fourth attempt and schedules nothing further. -/
theorem c10_witness :
    retry_webhook_delivery wActive exhaustedDelivery (.response 503 "e") =
      some (process_webhook_delivery wActive exhaustedDelivery (.response 503 "e")) ∧
    (process_webhook_delivery wActive exhaustedDelivery (.response 503 "e")).attempted = true ∧
    (process_webhook_delivery wActive exhaustedDelivery
        (.response 503 "e")).delivery.attemptCount = 4 ∧
    (process_webhook_delivery wActive exhaustedDelivery
        (.response 503 "e")).retryCountdown = none := by
  have h := c10_manual_retry_unbounded wActive exhaustedDelivery (.response 503 "e")
    (by decide) (by decide)
  exact ⟨h.1, h.2.1, by rw [h.2.2.1]; rfl, (h.2.2.2 (by decide)).2⟩

/-! ## Webhook signature (C5) -/

/-- C5 (amended): the signature header is
`sha256=hex(HMAC-SHA256(secret, json.dumps(payload, separators=(',',':'))))`,
and an independent verifier holding the same secret and the same serialized
payload (same key insertion order) reproduces it exactly; the serialization is
compact but keeps dict insertion order (`sort_keys` is not used). -/
theorem c5_signature_reproducible (p q : Json) (secret : String) (w : Webhook)
    (d : WebhookDelivery) (h : p.dumps = q.dumps) :
    sign_payload p secret = verifier_recompute secret q.dumps ∧
    sign_payload p secret = sign_payload q secret ∧
    signatureHeader w d = "sha256=" ++ verifier_recompute w.secret d.payload.dumps := by
  refine ⟨?_, ?_, rfl⟩
  · unfold sign_payload verifier_recompute
    rw [h]
  · unfold sign_payload
    rw [h]

/-- C5 counterexample: two payloads equal as key/value maps (entry lists are
permutations of one another) serialize differently under `sign_payload`'s
`json.dumps` call — which does not sort keys — and produce different
signatures, so an independent verifier cannot rely on key order. -/
theorem c5_counterexample :
    (Json.obj [("a", Json.str "1"), ("b", Json.str "2")]).entries.Perm
      (Json.obj [("b", Json.str "2"), ("a", Json.str "1")]).entries ∧
    (Json.obj [("a", Json.str "1"), ("b", Json.str "2")]).dumps ≠
      (Json.obj [("b", Json.str "2"), ("a", Json.str "1")]).dumps ∧
    sign_payload (Json.obj [("a", Json.str "1"), ("b", Json.str "2")]) "s" ≠
      sign_payload (Json.obj [("b", Json.str "2"), ("a", Json.str "1")]) "s" := by
  refine ⟨List.Perm.swap _ _ _, by decide, by decide⟩

/-- C5 witness: with the same payload on both sides the signature and the
header round-trip. -/
theorem c5_witness :
    sign_payload (Json.obj [("server_id", Json.str "X")]) "s" =
      verifier_recompute "s" (Json.obj [("server_id", Json.str "X")]).dumps ∧
    sign_payload (Json.obj [("server_id", Json.str "X")]) "s" =
      sign_payload (Json.obj [("server_id", Json.str "X")]) "s" ∧
    signatureHeader wActive freshDelivery =
      "sha256=" ++ verifier_recompute wActive.secret freshDelivery.payload.dumps :=
  c5_signature_reproducible _ _ "s" wActive freshDelivery rfl

/-! ## Capabilities check (C7) -/

/-- C7: the capabilities check passes iff the fetch returned 200, the body
parsed, and `registered - reported` is empty; a non-200 status, a non-JSON
body or a request exception each fail with a diagnostic; and for registered
capabilities search and translate against a body reporting only search, the
check fails with `missing_capabilities=["translate"]` in its details. -/
theorem c7_capabilities_check (registered : List String) (code : Nat)
    (b : Except String Json) (msg text : String) (j : Json) :
    ((verify_capabilities registered (.resp 200 (.ok j))).status = .passed ↔
       ∃ reported, extractReported j = .ok reported ∧ missingCaps registered reported = []) ∧
    (code ≠ 200 → (verify_capabilities registered (.resp code b)).status = .failed) ∧
    ((verify_capabilities registered (.resp 200 (.error text))).status = .failed) ∧
    ((verify_capabilities registered (.exn msg)).status = .failed) ∧
    ((verify_capabilities ["search", "translate"]
        (.resp 200 (.ok (.obj [("capabilities",
          .arr [.obj [("name", .str "search")]])])))).status = .failed ∧
      lookupEntry (verify_capabilities ["search", "translate"]
        (.resp 200 (.ok (.obj [("capabilities",
          .arr [.obj [("name", .str "search")]])])))).details.entries
        "missing_capabilities" = some (.arr [.str "translate"])) := by
  refine ⟨?_, ?_, by rw [verify_capabilities, if_neg (by simp)], rfl, rfl, rfl⟩
  · rw [verify_capabilities, if_neg (by simp)]
    cases hext : extractReported j with
    | error e =>
        simp only [hext]
        constructor
        · intro hfalse
          exact absurd hfalse (by simp)
        · rintro ⟨rep, hrep, _⟩
          exact Except.noConfusion hrep
    | ok rep =>
        simp only [hext]
        by_cases hm : (missingCaps registered rep).isEmpty
        · rw [if_pos hm]
          simp only [true_iff]
          exact ⟨rep, rfl, List.isEmpty_iff.mp hm⟩
        · rw [if_neg hm]
          constructor
          · intro hfalse
            exact absurd hfalse (by simp)
          · rintro ⟨rep', hrep', hmiss⟩
            cases Except.ok.inj hrep'
            exact absurd (by rw [hmiss]; rfl) hm
  · intro hcode
    rw [verify_capabilities.eq_def]
    dsimp only
    rw [if_pos hcode]

/-- C7 witness: a 503 response makes the capabilities check fail. -/
theorem c7_witness :
    (verify_capabilities ["search"] (.resp 503 (.error "oops"))).status = .failed :=
  (c7_capabilities_check ["search"] 503 (.error "oops") "m" "t" Json.null).2.1 (by decide)

/-! ## Meta-tag challenge (C9) -/

/-- C9 (amended): `verify_meta_tag` succeeds iff the GET returned status 200
and the FIRST occurrence of the meta-tag pattern in the page has content
exactly equal to the token; exceptions, non-200 statuses and missing or
non-matching tags all yield failure results with diagnostics (the exception is
an input of the model, so nothing propagates). -/
theorem c9_meta_tag_check (url token : String) (r : FetchResult) :
    ((verify_meta_tag url token r).success = true ↔
       ∃ body, r = .resp 200 body ∧ findMetaContent body.toList = some token) ∧
    (∀ msg, r = .exn msg → (verify_meta_tag url token r).success = false ∧
       (verify_meta_tag url token r).message = "Request error: " ++ msg) ∧
    (∀ code body, r = .resp code body → code ≠ 200 →
       (verify_meta_tag url token r).success = false) := by
  cases r with
  | exn msg =>
      refine ⟨?_, ?_, ?_⟩
      · simp only [verify_meta_tag]
        constructor
        · intro hfalse
          exact absurd hfalse (by simp)
        · rintro ⟨body, hbody, _⟩
          exact FetchResult.noConfusion hbody
      · rintro m hm
        cases hm
        exact ⟨rfl, rfl⟩
      · rintro code body hbody
        exact FetchResult.noConfusion hbody
  | resp code body =>
      refine ⟨?_, ?_, ?_⟩
      · rw [verify_meta_tag]
        by_cases hc : code = 200
        · subst hc
          rw [if_pos rfl]
          cases hf : findMetaContent body.toList with
          | none =>
              simp only
              constructor
              · intro hfalse
                exact absurd hfalse (by simp)
              · rintro ⟨body', hbody', hfind⟩
                cases FetchResult.resp.inj hbody' |>.2
                rw [hf] at hfind
                exact Option.noConfusion hfind
          | some v =>
              simp only
              by_cases hv : v = token
              · rw [if_pos hv]
                simp only [true_iff]
                exact ⟨body, rfl, by rw [hf, hv]⟩
              · rw [if_neg hv]
                constructor
                · intro hfalse
                  exact absurd hfalse (by simp)
                · rintro ⟨body', hbody', hfind⟩
                  cases FetchResult.resp.inj hbody' |>.2
                  rw [hf] at hfind
                  exact absurd (Option.some.inj hfind) hv
        · rw [if_neg hc]
          constructor
          · intro hfalse
            exact absurd hfalse (by simp)
          · rintro ⟨body', hbody', _⟩
            exact absurd (FetchResult.resp.inj hbody').1 hc
      · rintro m hm
        exact FetchResult.noConfusion hm
      · rintro code' body' hbody hc
        cases FetchResult.resp.inj hbody |>.1
        cases FetchResult.resp.inj hbody |>.2
        rw [verify_meta_tag, if_neg hc]

/-- C9 counterexample: a page that does contain a matching meta tag — but
only after a first tag with the wrong content — is rejected, because only the
first pattern match is compared against the token. -/
theorem c9_counterexample :
    ("tok" ∈ allMetaContents ("<meta name=\"mcp-verification\" content=\"wrong\"><meta name=\"mcp-verification\" content=\"tok\">").toList) ∧
    (verify_meta_tag "https://svc.example/" "tok"
      (.resp 200 "<meta name=\"mcp-verification\" content=\"wrong\"><meta name=\"mcp-verification\" content=\"tok\">")).success = false := by
  exact ⟨by decide, by decide⟩

/-- C9 witness: a 200 page whose first matching meta tag carries exactly the
token verifies successfully. -/
theorem c9_witness :
    (verify_meta_tag "https://svc.example/" "tok"
      (.resp 200 "<html><meta name=\"mcp-verification\" content=\"tok\"></html>")).success =
      true :=
  (c9_meta_tag_check "https://svc.example/" "tok" _).1.mpr
    ⟨"<html><meta name=\"mcp-verification\" content=\"tok\"></html>", rfl, by decide⟩

/-! ## Server lifecycle (C8) -/

/-- C8 counterexample: a freshly registered server is unverified but ACTIVE —
`is_active` defaults to true in servers/models.py, not false. -/
theorem c8_counterexample :
    (newServer 0).verified = false ∧ (newServer 0).isActive = true ∧
    ¬(newServer 0).isActive = false := by
  exact ⟨rfl, rfl, by decide⟩

/-- C8 (amended): a server is created unverified and active with no status
message; its first probe (`initiate_verification`) sets `is_active` to the
probe outcome with the corresponding status message and leaves `verified`
untouched; creating a verification request never touches server rows. -/
theorem c8_server_lifecycle (now now2 : Nat) (rows : List HRow) (sid : Nat) (isUp : Bool)
    (st : SysState) (sid2 : Nat) :
    (newServer now).verified = false ∧
    (newServer now).isActive = true ∧
    (newServer now).statusMessage = none ∧
    (initiate_verification now2 rows sid (newServer now) isUp).2.isActive = isUp ∧
    (initiate_verification now2 rows sid (newServer now) isUp).2.statusMessage =
      some (if isUp then "Server is active" else "Server is not responding") ∧
    (initiate_verification now2 rows sid (newServer now) isUp).2.verified = false ∧
    (requestVerification st sid2).1.servers = st.servers := by
  refine ⟨rfl, rfl, rfl, ?_, ?_, ?_, ?_⟩
  · unfold initiate_verification
    cases isUp <;> simp
  · unfold initiate_verification
    cases isUp <;> simp
  · unfold initiate_verification
    cases isUp <;> simp [hcs_verified, newServer]
  · unfold requestVerification
    split
    · rfl
    · split
      · rfl
      · rfl

/-! ## State machine lemmas -/

/-- Updating the row stored under `sid` only affects lookups of `sid`, which
see the updated row (`g` is the entry transformation, which keeps the key). -/
theorem find?_map_update (l : List (Nat × ServerRow)) (sid sid' : Nat)
    (g : Nat × ServerRow → Nat × ServerRow) (hg : ∀ p, (g p).1 = p.1) :
    (l.map fun p => if p.1 == sid then g p else p).find? (fun p => p.1 == sid') =
      if sid' = sid then (l.find? fun p => p.1 == sid').map g
      else l.find? fun p => p.1 == sid' := by
  induction l with
  | nil => split <;> simp
  | cons p l ih =>
      simp only [List.map_cons, List.find?_cons]
      by_cases hp : p.1 = sid
      · have hpb : (p.1 == sid) = true := by simpa using hp
        rw [if_pos hpb]
        by_cases hs : sid' = sid
        · subst hs
          have hgb : ((g p).1 == sid') = true := by rw [hg]; exact hpb
          simp [hgb, hpb]
        · have hsb : ((g p).1 == sid') = false := by
            rw [hg]
            simp only [beq_eq_false_iff_ne, ne_eq]
            omega
          have hsb2 : (p.1 == sid') = false := by
            simp only [beq_eq_false_iff_ne, ne_eq]
            omega
          simp only [hsb, hsb2]
          rw [ih, if_neg hs]
      · have hpb : (p.1 == sid) = false := by simpa using hp
        rw [if_neg (by simp [hpb])]
        by_cases hs : p.1 = sid'
        · have hsb : (p.1 == sid') = true := by simpa using hs
          have hss : ¬sid' = sid := by omega
          simp only [hsb]
          rw [if_neg hss]
        · have hsb : (p.1 == sid') = false := by simpa using hs
          simp only [hsb]
          exact ih

/-- `recordHealth` leaves every server's verified flag unchanged. -/
theorem serverVerified_recordHealth (st : SysState) (sid now : Nat) (b : Bool) (sid' : Nat) :
    serverVerified (recordHealth st sid now b) sid' = serverVerified st sid' := by
  unfold recordHealth
  cases hf : st.servers.find? (fun p => p.1 == sid) with
  | none => rfl
  | some p =>
      unfold serverVerified findServer updateServer
      dsimp only
      rw [find?_map_update st.servers sid sid'
        (fun q => (q.1, (health_check_save now st.healthLog sid p.2 b).2)) (fun q => rfl)]
      by_cases hs : sid' = sid
      · rw [if_pos hs]
        subst hs
        rw [hf]
        simp [hcs_verified]
      · rw [if_neg hs]

/-- `initiate_verification` leaves the verified flag unchanged. -/
theorem initiate_verified (now : Nat) (rows : List HRow) (sid : Nat) (srv : ServerRow)
    (b : Bool) :
    (initiate_verification now rows sid srv b).2.verified = srv.verified := by
  unfold initiate_verification
  cases b <;> simp [hcs_verified]

/-- The initiate operation leaves every server's verified flag unchanged. -/
theorem serverVerified_initiate (st : SysState) (sid now : Nat) (b : Bool) (sid' : Nat) :
    serverVerified (applyOp st (.initiate sid now b)).1 sid' = serverVerified st sid' := by
  simp only [applyOp]
  cases hf : st.servers.find? (fun p => p.1 == sid) with
  | none => rfl
  | some p =>
      unfold serverVerified findServer updateServer
      dsimp only
      rw [find?_map_update st.servers sid sid'
        (fun q => (q.1, (initiate_verification now st.healthLog sid p.2 b).2)) (fun q => rfl)]
      by_cases hs : sid' = sid
      · rw [if_pos hs]
        subst hs
        rw [hf]
        simp [initiate_verified]
      · rw [if_neg hs]

/-- `recordHealth` never touches the request table. -/
theorem requests_recordHealth (st : SysState) (sid now : Nat) (b : Bool) :
    (recordHealth st sid now b).requests = st.requests := by
  unfold recordHealth
  cases st.servers.find? (fun p => p.1 == sid) <;> rfl

/-- Registration never touches the request table. -/
theorem requests_registerServer (st : SysState) (sid now : Nat) :
    (registerServer st sid now).requests = st.requests := by
  unfold registerServer
  split <;> rfl

/-- The initiate operation never touches the request table. -/
theorem requests_initiate (st : SysState) (sid now : Nat) (b : Bool) :
    (applyOp st (.initiate sid now b)).1.requests = st.requests := by
  simp only [applyOp]
  cases st.servers.find? (fun p => p.1 == sid) <;> rfl

/-- Creating a verification request never touches server rows. -/
theorem servers_requestVerification (st : SysState) (sid : Nat) :
    (requestVerification st sid).1.servers = st.servers := by
  unfold requestVerification
  split
  · rfl
  · split <;> rfl

/-- The verified flag seen through a request-creation operation. -/
theorem serverVerified_requestVerification (st : SysState) (sid sid' : Nat) :
    serverVerified (requestVerification st sid).1 sid' = serverVerified st sid' := by
  unfold serverVerified findServer
  rw [servers_requestVerification]

/-- Setting the verified flag of server `k` true: lookups of `k` see `true`,
all other lookups are unchanged. -/
theorem serverVerified_setVerified (st : SysState) (k sid : Nat) :
    serverVerified (updateServer st k fun s => { s with verified := true }) sid =
      if sid = k then (serverVerified st sid).map (fun _ => true)
      else serverVerified st sid := by
  unfold serverVerified findServer updateServer
  dsimp only
  rw [find?_map_update st.servers k sid
    (fun q => (q.1, { q.2 with verified := true })) (fun q => rfl)]
  by_cases hs : sid = k
  · rw [if_pos hs, if_pos hs]
    cases st.servers.find? (fun p => p.1 == sid) <;> simp
  · rw [if_neg hs, if_neg hs]

/-- Completion of an unknown or already-terminal request: rejected, state
unchanged. -/
theorem complete_eq_notFound (st : SysState) (rid : Nat) (env : CompletionEnv)
    (hfind : st.requests.find? (fun r => r.id == rid && isNonTerminal r.status) = none) :
    completeVerification st rid env = (st, .notFound) := by
  unfold completeVerification
  rw [hfind]

/-- Completion with an expired token: rejected, state unchanged. -/
theorem complete_eq_expired (st : SysState) (rid : Nat) (env : CompletionEnv) (r0 : VRequest)
    (hfind : st.requests.find? (fun r => r.id == rid && isNonTerminal r.status) = some r0)
    (htok : env.tokenValid = false) :
    completeVerification st rid env = (st, .tokenExpired) := by
  unfold completeVerification
  rw [hfind, htok]
  rfl

/-- Completion whose ownership challenge fails: the request is failed with
only the ownership check touched, and no other check runs. -/
theorem complete_eq_ownFail (st : SysState) (rid : Nat) (env : CompletionEnv) (r0 : VRequest)
    (hfind : st.requests.find? (fun r => r.id == rid && isNonTerminal r.status) = some r0)
    (htok : env.tokenValid = true) (hown : env.ownershipOk = false) :
    completeVerification st rid env =
      (setRequest st rid
        { r0 with status := .failed, methodChosen := some env.method,
                  checks := { r0.checks with ownership := .failed } },
       .ownershipFailed) := by
  unfold completeVerification
  rw [hfind, htok, hown]
  rfl

/-- Fully successful completion: request completed with `completed_at`
stamped, all four checks passed, and the server's verified flag set. -/
theorem complete_eq_success (st : SysState) (rid : Nat) (env : CompletionEnv) (r0 : VRequest)
    (hfind : st.requests.find? (fun r => r.id == rid && isNonTerminal r.status) = some r0)
    (htok : env.tokenValid = true) (hown : env.ownershipOk = true)
    (hh : env.healthUp = true) (hc : env.capsOk = true) :
    completeVerification st rid env =
      (updateServer
        (setRequest (recordHealth st r0.serverId env.now true) rid (completedRequest r0 env))
        r0.serverId fun s => { s with verified := true },
       .verifiedOk rid) := by
  unfold completeVerification
  rw [hfind, htok, hown, hh, hc]
  rfl

/-- Completion whose health probe is down: capabilities are still attempted,
the request ends failed. -/
theorem complete_eq_healthDown (st : SysState) (rid : Nat) (env : CompletionEnv) (r0 : VRequest)
    (hfind : st.requests.find? (fun r => r.id == rid && isNonTerminal r.status) = some r0)
    (htok : env.tokenValid = true) (hown : env.ownershipOk = true)
    (hh : env.healthUp = false) :
    completeVerification st rid env =
      (setRequest (recordHealth st r0.serverId env.now false) rid
        { r0 with status := .failed, methodChosen := some env.method,
                  checks := { ownership := .passed, health := .failed,
                              capabilities := if env.capsOk then .passed else .failed,
                              security := .passed } },
       .checksFailed (failedCheckTypes
          { ownership := .passed, health := .failed,
            capabilities := if env.capsOk then .passed else .failed,
            security := .passed })) := by
  unfold completeVerification
  rw [hfind, htok, hown, hh]
  rfl

/-- Completion whose capabilities check fails (health up): the request ends
failed. -/
theorem complete_eq_capsDown (st : SysState) (rid : Nat) (env : CompletionEnv) (r0 : VRequest)
    (hfind : st.requests.find? (fun r => r.id == rid && isNonTerminal r.status) = some r0)
    (htok : env.tokenValid = true) (hown : env.ownershipOk = true)
    (hh : env.healthUp = true) (hc : env.capsOk = false) :
    completeVerification st rid env =
      (setRequest (recordHealth st r0.serverId env.now true) rid
        { r0 with status := .failed, methodChosen := some env.method,
                  checks := { ownership := .passed, health := .passed,
                              capabilities := .failed, security := .passed } },
       .checksFailed (failedCheckTypes
          { ownership := .passed, health := .passed,
            capabilities := .failed, security := .passed })) := by
  unfold completeVerification
  rw [hfind, htok, hown, hh, hc]
  rfl

/-- `setRequest` never touches the server table. -/
theorem servers_setRequest (st : SysState) (rid : Nat) (r' : VRequest) :
    (setRequest st rid r').servers = st.servers := rfl

/-- The verified flag seen through `setRequest`. -/
theorem serverVerified_setRequest (st : SysState) (rid : Nat) (r' : VRequest) (sid : Nat) :
    serverVerified (setRequest st rid r') sid = serverVerified st sid := rfl

/-- Registration preserves the verified flag of every already-present server. -/
theorem serverVerified_registerServer (st : SysState) (sid now sid' : Nat) (v : Bool)
    (h : serverVerified st sid' = some v) :
    serverVerified (registerServer st sid now) sid' = some v := by
  unfold registerServer
  by_cases hex : (st.servers.find? (fun p => p.1 == sid)).isSome
  · rw [if_pos hex]
    exact h
  · rw [if_neg hex]
    unfold serverVerified findServer at h ⊢
    dsimp only
    rw [List.find?_append]
    cases hf : st.servers.find? (fun p => p.1 == sid') with
    | none => rw [hf] at h; exact Option.noConfusion h
    | some p => rw [hf] at h; simpa using h

/-! ## C1: the verified flag -/

/-- C1: for every core operation, `Server.verified` flips from false to true
exactly when a completion run ends with all four checks of one request passed
— that request is then completed with `completed_at` stamped — and the flag is
monotone: no core operation ever takes it back from true to false. -/
theorem c1_verified_flip_and_monotone (st : SysState) (op : Op) (sid : Nat) :
    (serverVerified st sid = some true → serverVerified (applyOp st op).1 sid = some true) ∧
    (serverVerified st sid = some false →
      (serverVerified (applyOp st op).1 sid = some true ↔
        ∃ rid env, op = .complete rid env ∧ (applyOp st op).2 = .verifiedOk rid ∧
          ∃ r', r' ∈ (applyOp st op).1.requests ∧ r'.id = rid ∧ r'.serverId = sid ∧
            r'.checks = { ownership := .passed, health := .passed,
                          capabilities := .passed, security := .passed } ∧
            r'.status = .completed ∧ r'.completedAt = some env.now)) := by
  cases op with
  | register sid2 now =>
      simp only [applyOp]
      refine ⟨fun h => serverVerified_registerServer st sid2 now sid true h, fun h => ?_⟩
      have hkeep := serverVerified_registerServer st sid2 now sid false h
      constructor
      · intro hL
        rw [hkeep] at hL
        exact absurd (Option.some.inj hL) (by simp)
      · rintro ⟨rid, env, hop, _⟩
        exact Op.noConfusion hop
  | request sid2 =>
      simp only [applyOp]
      refine ⟨fun h => by rw [serverVerified_requestVerification]; exact h, fun h => ?_⟩
      constructor
      · intro hL
        rw [serverVerified_requestVerification, h] at hL
        exact absurd (Option.some.inj hL) (by simp)
      · rintro ⟨rid, env, hop, _⟩
        exact Op.noConfusion hop
  | probe sid2 now b =>
      simp only [applyOp]
      refine ⟨fun h => by rw [serverVerified_recordHealth]; exact h, fun h => ?_⟩
      constructor
      · intro hL
        rw [serverVerified_recordHealth, h] at hL
        exact absurd (Option.some.inj hL) (by simp)
      · rintro ⟨rid, env, hop, _⟩
        exact Op.noConfusion hop
  | initiate sid2 now b =>
      refine ⟨fun h => by rw [serverVerified_initiate]; exact h, fun h => ?_⟩
      constructor
      · intro hL
        rw [serverVerified_initiate, h] at hL
        exact absurd (Option.some.inj hL) (by simp)
      · rintro ⟨rid, env, hop, _⟩
        exact Op.noConfusion hop
  | complete rid env =>
      simp only [applyOp]
      cases hfind : st.requests.find? (fun r => r.id == rid && isNonTerminal r.status) with
      | none =>
          rw [complete_eq_notFound st rid env hfind]
          refine ⟨fun h => h, fun h => ?_⟩
          constructor
          · intro hL
            rw [h] at hL
            exact absurd (Option.some.inj hL) (by simp)
          · rintro ⟨rid', env', hop, hresp, _⟩
            cases hop
            exact VResponse.noConfusion hresp
      | some r0 =>
          cases htok : env.tokenValid with
          | false =>
              rw [complete_eq_expired st rid env r0 hfind htok]
              refine ⟨fun h => h, fun h => ?_⟩
              constructor
              · intro hL
                rw [h] at hL
                exact absurd (Option.some.inj hL) (by simp)
              · rintro ⟨rid', env', hop, hresp, _⟩
                cases hop
                exact VResponse.noConfusion hresp
          | true =>
              cases hown : env.ownershipOk with
              | false =>
                  rw [complete_eq_ownFail st rid env r0 hfind htok hown]
                  refine ⟨fun h => by rw [serverVerified_setRequest]; exact h, fun h => ?_⟩
                  constructor
                  · intro hL
                    rw [serverVerified_setRequest, h] at hL
                    exact absurd (Option.some.inj hL) (by simp)
                  · rintro ⟨rid', env', hop, hresp, _⟩
                    cases hop
                    exact VResponse.noConfusion hresp
              | true =>
                  cases hh : env.healthUp with
                  | false =>
                      rw [complete_eq_healthDown st rid env r0 hfind htok hown hh]
                      refine ⟨fun h => by
                        rw [serverVerified_setRequest, serverVerified_recordHealth]
                        exact h, fun h => ?_⟩
                      constructor
                      · intro hL
                        rw [serverVerified_setRequest, serverVerified_recordHealth, h] at hL
                        exact absurd (Option.some.inj hL) (by simp)
                      · rintro ⟨rid', env', hop, hresp, _⟩
                        cases hop
                        exact VResponse.noConfusion hresp
                  | true =>
                      cases hc : env.capsOk with
                      | false =>
                          rw [complete_eq_capsDown st rid env r0 hfind htok hown hh hc]
                          refine ⟨fun h => by
                            rw [serverVerified_setRequest, serverVerified_recordHealth]
                            exact h, fun h => ?_⟩
                          constructor
                          · intro hL
                            rw [serverVerified_setRequest, serverVerified_recordHealth, h] at hL
                            exact absurd (Option.some.inj hL) (by simp)
                          · rintro ⟨rid', env', hop, hresp, _⟩
                            cases hop
                            exact VResponse.noConfusion hresp
                      | true =>
                          rw [complete_eq_success st rid env r0 hfind htok hown hh hc]
                          have hid : r0.id = rid := by
                            have hpred := List.find?_some hfind
                            have := (Bool.and_eq_true _ _).mp hpred |>.1
                            simpa using this
                          have hkey : ∀ s',
                              serverVerified
                                (updateServer
                                  (setRequest (recordHealth st r0.serverId env.now true) rid
                                    (completedRequest r0 env))
                                  r0.serverId fun s => { s with verified := true }) s' =
                                if s' = r0.serverId then (serverVerified st s').map (fun _ => true)
                                else serverVerified st s' := by
                            intro s'
                            rw [serverVerified_setVerified, serverVerified_setRequest,
                                serverVerified_recordHealth]
                          have hreqs :
                              (updateServer
                                (setRequest (recordHealth st r0.serverId env.now true) rid
                                  (completedRequest r0 env))
                                r0.serverId fun s => { s with verified := true }).requests =
                                st.requests.map
                                  (fun r => if r.id == rid then completedRequest r0 env else r) := by
                            show (setRequest (recordHealth st r0.serverId env.now true) rid
                                (completedRequest r0 env)).requests = _
                            unfold setRequest
                            dsimp only
                            rw [requests_recordHealth]
                          constructor
                          · intro h
                            rw [hkey sid]
                            by_cases hs : sid = r0.serverId
                            · rw [if_pos hs, h]
                              rfl
                            · rw [if_neg hs]
                              exact h
                          · intro h
                            constructor
                            · intro hL
                              rw [hkey sid] at hL
                              by_cases hs : sid = r0.serverId
                              case neg =>
                                rw [if_neg hs, h] at hL
                                exact absurd (Option.some.inj hL) (by simp)
                              case pos =>
                                refine ⟨rid, env, rfl, rfl, completedRequest r0 env, ?_, hid, ?_,
                                  rfl, rfl, rfl⟩
                                · rw [hreqs]
                                  have hmem := List.mem_map_of_mem
                                    (fun r => if r.id == rid then completedRequest r0 env else r)
                                    (List.mem_of_find?_eq_some hfind)
                                  simpa [hid] using hmem
                                · show r0.serverId = sid
                                  exact hs.symm
                            · rintro ⟨rid', env', hop, hresp, r', hmem, hid', hsid', _⟩
                              cases hop
                              rw [hkey sid]
                              by_cases hs : sid = r0.serverId
                              · rw [if_pos hs, h]
                                rfl
                              · exfalso
                                rw [hreqs] at hmem
                                obtain ⟨r₁, hr₁, himg⟩ := List.mem_map.mp hmem
                                by_cases h₁ : r₁.id = rid
                                · have hb : (r₁.id == rid) = true := by simpa using h₁
                                  rw [if_pos hb] at himg
                                  apply hs
                                  rw [← hsid', ← himg]
                                  rfl
                                · have hb : (r₁.id == rid) = false := by simpa using h₁
                                  rw [if_neg (by simp [hb])] at himg
                                  apply h₁
                                  rw [← himg] at hid'
                                  exact hid'

/-- C1 witness: completing the pending request of the registered server with
every external check passing flips the server's verified flag to true. -/
theorem c1_witness :
    serverVerified (applyOp stReq (.complete 0 envOk)).1 0 = some true :=
  ((c1_verified_flip_and_monotone stReq (.complete 0 envOk) 0).2 (by decide)).mpr
    ⟨0, envOk, rfl, by decide,
     completedRequest
       { id := 0, serverId := 0, status := .pending, methodChosen := none,
         checks := Checks.allPending, completedAt := none } envOk,
     by decide, rfl, rfl, rfl, rfl, rfl⟩

/-! ## C2: at most one active request per server -/

/-- Replacing a request by a terminal one never increases the number of
active requests of any server. -/
theorem activeCount_setRequest_le (st : SysState) (rid : Nat) (rT : VRequest) (sid : Nat)
    (hterm : isNonTerminal rT.status = false) :
    activeRequestCount (setRequest st rid rT) sid ≤ activeRequestCount st sid := by
  unfold activeRequestCount setRequest
  dsimp only
  rw [← List.countP_eq_length_filter, ← List.countP_eq_length_filter, List.countP_map]
  apply List.countP_mono_left
  intro r _ hp
  simp only [Function.comp] at hp
  by_cases hb : (r.id == rid) = true
  · rw [if_pos hb] at hp
    rw [hterm, Bool.and_false] at hp
    exact Bool.noConfusion hp
  · rw [if_neg (by simp [Bool.not_eq_true] at hb; simp [hb])] at hp
    exact hp

/-- In every reachable state, each server has at most one active
(pending or in-progress) verification request. -/
theorem activeCount_invariant (st : SysState) (h : Reachable st) (sid : Nat) :
    activeRequestCount st sid ≤ 1 := by
  induction h with
  | init => simp [activeRequestCount, initState]
  | step op hre ih =>
      rename_i st0
      cases op with
      | register sid2 now =>
          simp only [applyOp]
          unfold activeRequestCount
          rw [requests_registerServer]
          exact ih
      | probe sid2 now b =>
          simp only [applyOp]
          unfold activeRequestCount
          rw [requests_recordHealth]
          exact ih
      | initiate sid2 now b =>
          unfold activeRequestCount
          rw [requests_initiate]
          exact ih
      | request sid2 =>
          simp only [applyOp]
          unfold requestVerification
          cases hsf : st0.servers.find? (fun p => p.1 == sid2) with
          | none => exact ih
          | some p =>
              cases hrf : st0.requests.find?
                  (fun r => r.serverId == sid2 && isNonTerminal r.status) with
              | some ex => exact ih
              | none =>
                  unfold activeRequestCount
                  dsimp only
                  rw [List.filter_append, List.length_append]
                  by_cases hss : sid2 = sid
                  · subst hss
                    have hzero : (st0.requests.filter
                        (fun r => r.serverId == sid2 && isNonTerminal r.status)).length = 0 := by
                      rw [List.length_eq_zero, List.filter_eq_nil_iff]
                      exact List.find?_eq_none.mp hrf
                    rw [hzero]
                    simp [isNonTerminal]
                  · have hone : (List.filter
                        (fun r => r.serverId == sid && isNonTerminal r.status)
                        ([{ id := st0.nextRequestId, serverId := sid2, status := .pending,
                            methodChosen := none, checks := Checks.allPending,
                            completedAt := none }] : List VRequest)).length = 0 := by
                      simp [hss]
                    rw [hone]
                    have := ih
                    unfold activeRequestCount at this
                    omega
      | complete rid env =>
          cases hfind : st0.requests.find?
              (fun r => r.id == rid && isNonTerminal r.status) with
          | none =>
              simp only [applyOp]
              rw [complete_eq_notFound st0 rid env hfind]
              exact ih
          | some r0 =>
              cases htok : env.tokenValid with
              | false =>
                  simp only [applyOp]
                  rw [complete_eq_expired st0 rid env r0 hfind htok]
                  exact ih
              | true =>
                  cases hown : env.ownershipOk with
                  | false =>
                      simp only [applyOp]
                      rw [complete_eq_ownFail st0 rid env r0 hfind htok hown]
                      exact le_trans (activeCount_setRequest_le st0 rid _ sid rfl) ih
                  | true =>
                      cases hh : env.healthUp with
                      | false =>
                          simp only [applyOp]
                          rw [complete_eq_healthDown st0 rid env r0 hfind htok hown hh]
                          refine le_trans (activeCount_setRequest_le _ rid _ sid rfl) ?_
                          unfold activeRequestCount
                          rw [requests_recordHealth]
                          exact ih
                      | true =>
                          cases hc : env.capsOk with
                          | false =>
                              simp only [applyOp]
                              rw [complete_eq_capsDown st0 rid env r0 hfind htok hown hh hc]
                              refine le_trans (activeCount_setRequest_le _ rid _ sid rfl) ?_
                              unfold activeRequestCount
                              rw [requests_recordHealth]
                              exact ih
                          | true =>
                              simp only [applyOp]
                              rw [complete_eq_success st0 rid env r0 hfind htok hown hh hc]
                              refine le_trans
                                (activeCount_setRequest_le _ rid (completedRequest r0 env) sid rfl)
                                ?_
                              unfold activeRequestCount
                              rw [requests_recordHealth]
                              exact ih

/-- C2: in every reachable state each server has at most one pending or
in-progress verification request, and requesting verification while an active
request exists creates nothing: the state is unchanged and the caller gets a
conflict error carrying the existing request's status. -/
theorem c2_single_active_request (st : SysState) (hreach : Reachable st) :
    (∀ sid, activeRequestCount st sid ≤ 1) ∧
    (∀ sid r, st.requests.find? (fun q => q.serverId == sid && isNonTerminal q.status) = some r →
      (st.servers.find? (fun p => p.1 == sid)).isSome = true →
      requestVerification st sid = (st, .conflict r.status)) := by
  refine ⟨fun sid => activeCount_invariant st hreach sid, ?_⟩
  intro sid r hfind hsrv
  unfold requestVerification
  cases hs : st.servers.find? (fun p => p.1 == sid) with
  | none => rw [hs] at hsrv; exact Bool.noConfusion hsrv
  | some p => rw [hfind]

/-- C2 witness: in the reachable state with one pending request for server 0,
the count is at most one and a second request is rejected with a conflict
error quoting the pending status. -/
theorem c2_witness :
    activeRequestCount stReq 0 ≤ 1 ∧
    requestVerification stReq 0 =
      (stReq, .conflict RStatus.pending) := by
  have hreach : Reachable stReq :=
    Reachable.step (.request 0) (Reachable.step (.register 0 0) Reachable.init)
  have h := c2_single_active_request stReq hreach
  refine ⟨h.1 0, ?_⟩
  have h2 := h.2 0
    { id := 0, serverId := 0, status := .pending, methodChosen := none,
      checks := Checks.allPending, completedAt := none }
    (by decide) (by decide)
  exact h2

/-! ## C3: ownership short-circuit and health failure -/

/-- Replacing a request by a terminal one preserves the property that every
active request still has all four checks pending. -/
theorem pending_setRequest (st : SysState) (rid : Nat) (rT : VRequest)
    (hterm : isNonTerminal rT.status = false)
    (ih : ∀ r ∈ st.requests, isNonTerminal r.status = true → r.checks = Checks.allPending) :
    ∀ r ∈ (setRequest st rid rT).requests, isNonTerminal r.status = true →
      r.checks = Checks.allPending := by
  intro r hr htr
  obtain ⟨r₁, hr₁, himg⟩ := List.mem_map.mp hr
  by_cases hb : (r₁.id == rid) = true
  · rw [if_pos hb] at himg
    rw [← himg] at htr
    rw [hterm] at htr
    exact Bool.noConfusion htr
  · rw [if_neg hb] at himg
    rw [← himg]
    exact ih r₁ hr₁ (himg ▸ htr)

/-- In every reachable state, a pending or in-progress request still has all
four checks in their pre-seeded pending state. -/
theorem pendingChecks_invariant (st : SysState) (h : Reachable st) :
    ∀ r ∈ st.requests, isNonTerminal r.status = true → r.checks = Checks.allPending := by
  induction h with
  | init => intro r hr; exact absurd hr (List.not_mem_nil r)
  | step op hre ih =>
      rename_i st0
      cases op with
      | register sid2 now =>
          intro r hr
          simp only [applyOp] at hr
          rw [requests_registerServer] at hr
          exact ih r hr
      | probe sid2 now b =>
          intro r hr
          simp only [applyOp] at hr
          rw [requests_recordHealth] at hr
          exact ih r hr
      | initiate sid2 now b =>
          intro r hr
          rw [requests_initiate] at hr
          exact ih r hr
      | request sid2 =>
          simp only [applyOp]
          unfold requestVerification
          cases hsf : st0.servers.find? (fun p => p.1 == sid2) with
          | none => exact ih
          | some p =>
              cases hrf : st0.requests.find?
                  (fun r => r.serverId == sid2 && isNonTerminal r.status) with
              | some ex => exact ih
              | none =>
                  intro r hr htr
                  dsimp only at hr
                  rcases List.mem_append.mp hr with h1 | h2
                  · exact ih r h1 htr
                  · rw [List.mem_singleton.mp h2]
      | complete rid env =>
          simp only [applyOp]
          cases hfind : st0.requests.find?
              (fun r => r.id == rid && isNonTerminal r.status) with
          | none =>
              rw [complete_eq_notFound st0 rid env hfind]
              exact ih
          | some r0 =>
              cases htok : env.tokenValid with
              | false =>
                  rw [complete_eq_expired st0 rid env r0 hfind htok]
                  exact ih
              | true =>
                  cases hown : env.ownershipOk with
                  | false =>
                      rw [complete_eq_ownFail st0 rid env r0 hfind htok hown]
                      exact pending_setRequest st0 rid _ rfl ih
                  | true =>
                      have ih1 : ∀ r ∈ (recordHealth st0 r0.serverId env.now env.healthUp).requests,
                          isNonTerminal r.status = true → r.checks = Checks.allPending := by
                        intro r hr
                        rw [requests_recordHealth] at hr
                        exact ih r hr
                      cases hh : env.healthUp with
                      | false =>
                          rw [complete_eq_healthDown st0 rid env r0 hfind htok hown hh]
                          exact pending_setRequest _ rid _ rfl (hh ▸ ih1)
                      | true =>
                          cases hc : env.capsOk with
                          | false =>
                              rw [complete_eq_capsDown st0 rid env r0 hfind htok hown hh hc]
                              exact pending_setRequest _ rid _ rfl (hh ▸ ih1)
                          | true =>
                              rw [complete_eq_success st0 rid env r0 hfind htok hown hh hc]
                              exact pending_setRequest _ rid (completedRequest r0 env) rfl
                                (hh ▸ ih1)

/-- C3: when a reachable pending/in-progress request is completed with a
valid token: if the ownership challenge fails, the request is failed with the
health and capabilities checks still pending (short-circuit); if ownership
passes but the health probe is down, the capabilities check is still attempted
(it leaves pending) and the request ends failed with health among the failed
checks returned to the caller. -/
theorem c3_short_circuit_and_health (st : SysState) (rid : Nat) (env : CompletionEnv)
    (r0 : VRequest) (hreach : Reachable st)
    (hfind : st.requests.find? (fun r => r.id == rid && isNonTerminal r.status) = some r0)
    (htok : env.tokenValid = true) :
    (env.ownershipOk = false →
      (completeVerification st rid env).2 = .ownershipFailed ∧
      ∃ r', r' ∈ (completeVerification st rid env).1.requests ∧ r'.id = rid ∧
        r'.status = .failed ∧ r'.checks.ownership = .failed ∧
        r'.checks.health = .pending ∧ r'.checks.capabilities = .pending) ∧
    (env.ownershipOk = true → env.healthUp = false →
      ∃ l, (completeVerification st rid env).2 = .checksFailed l ∧ CheckType.health ∈ l ∧
        ∃ r', r' ∈ (completeVerification st rid env).1.requests ∧ r'.id = rid ∧
          r'.status = .failed ∧ r'.checks.health = .failed ∧
          r'.checks.capabilities ≠ .pending) := by
  have hpred := List.find?_some hfind
  have hid : r0.id = rid := by
    have := (Bool.and_eq_true _ _).mp hpred |>.1
    simpa using this
  have hidb : (r0.id == rid) = true := by simpa using hid
  have hnt : isNonTerminal r0.status = true := (Bool.and_eq_true _ _).mp hpred |>.2
  have hmem0 : r0 ∈ st.requests := List.mem_of_find?_eq_some hfind
  have hpend : r0.checks = Checks.allPending := pendingChecks_invariant st hreach r0 hmem0 hnt
  constructor
  · intro hown
    rw [complete_eq_ownFail st rid env r0 hfind htok hown]
    refine ⟨rfl, ?_⟩
    refine ⟨{ r0 with status := .failed, methodChosen := some env.method, checks := { r0.checks with ownership := .failed } }, ?_, hid, rfl, rfl, ?_, ?_⟩
    · have hmem := List.mem_map_of_mem
        (fun r => if r.id == rid then { r0 with status := RStatus.failed, methodChosen := some env.method, checks := { r0.checks with ownership := CStatus.failed } } else r) hmem0
      dsimp only at hmem
      rw [if_pos hidb] at hmem
      exact hmem
    · show r0.checks.health = .pending
      rw [hpend]
      rfl
    · show r0.checks.capabilities = .pending
      rw [hpend]
      rfl
  · intro hown hh
    rw [complete_eq_healthDown st rid env r0 hfind htok hown hh]
    refine ⟨_, rfl, ?_, ?_⟩
    · cases hc : env.capsOk <;> simp [failedCheckTypes, hc]
    · refine ⟨{ r0 with status := .failed, methodChosen := some env.method, checks := { ownership := .passed, health := .failed, capabilities := if env.capsOk then .passed else .failed, security := .passed } }, ?_, hid, rfl, rfl, ?_⟩
      · show _ ∈ ((recordHealth st r0.serverId env.now false).requests.map _)
        rw [requests_recordHealth]
        have hmem := List.mem_map_of_mem
          (fun r => if r.id == rid then { r0 with status := RStatus.failed, methodChosen := some env.method, checks := { ownership := CStatus.passed, health := CStatus.failed, capabilities := if env.capsOk then CStatus.passed else CStatus.failed, security := CStatus.passed } } else r) hmem0
        dsimp only at hmem
        rw [if_pos hidb] at hmem
        exact hmem
      · cases hc : env.capsOk <;> simp

/-- C3 witness: completing the pending request with a failing ownership
challenge returns the ownership failure to the caller. -/
theorem c3_witness :
    (completeVerification stReq 0 envOwnFail).2 = .ownershipFailed :=
  ((c3_short_circuit_and_health stReq 0 envOwnFail
      { id := 0, serverId := 0, status := .pending, methodChosen := none,
        checks := Checks.allPending, completedAt := none }
      (Reachable.step (.request 0) (Reachable.step (.register 0 0) Reachable.init))
      (by decide) rfl).1 rfl).1

end McpNexus
